import Mathlib

/-
Verification of the balance-consistency engine of the Expense-Tracker Django
backend.  The model below is a shallow embedding of `expenses/models.py`
(Expense.save/delete, Income.save/delete, Transfer.save/delete,
Transfer._reverse_effect, Transfer._apply_effect), `expenses/utils.py`
(get_external_account) and `expenses/serializers.py`
(TransferSerializer.validate).

Modelling conventions:
* `DB` is the database state: the account rows plus the persisted ledger rows.
* Monetary values (DecimalField with 2 decimal places) are exact fixed-point
  numbers; they are embedded as `Int` (the number of cents), on which the
  source's additions and subtractions are exact.
* `Account.objects.filter(pk=i).update(balance=F('balance') + d)` becomes
  `updBalance db i d`: every stored row whose pk matches is bumped, a missing
  pk is a no-op, exactly like the SQL UPDATE.
* Each mutation runs inside `transaction.atomic()`; an exception aborts the
  transaction and rolls every write back.  A mutation is therefore a function
  `DB → Except (Err × DB) DB`: on success the new state, on failure the error
  kind together with the state at the moment the exception was raised (the
  pre-rollback state).  The caller-visible state after a failure is the
  original `db` (rollback), computed by `visible`.
* `full_clean()` validates the model's `clean()` checks and the table's check
  constraints (`amount > 0`) before the balance writes, in source order.
-/

set_option maxHeartbeats 1000000

namespace ExpTracker

/-- `expenses.models.Account`: id, owning user, name, cached balance (cents),
`is_system` flag for the hidden external account. -/
structure Account where
  id : Nat
  userId : Nat
  name : String
  balance : Int
  is_system : Bool
  deriving DecidableEq

/-- A persisted `expenses.models.Expense` row. -/
structure ExpenseRow where
  pk : Nat
  userId : Nat
  accountId : Nat
  categoryId : Nat
  amount : Int
  deriving DecidableEq

/-- A persisted `expenses.models.Income` row. -/
structure IncomeRow where
  pk : Nat
  userId : Nat
  accountId : Nat
  amount : Int
  deriving DecidableEq

/-- A persisted `expenses.models.Transfer` row. -/
structure TransferRow where
  pk : Nat
  userId : Nat
  fromAccountId : Nat
  toAccountId : Nat
  amount : Int
  deriving DecidableEq

/-- A persisted `expenses.models.Category` row (only the fields the ledger
validation reads). -/
structure CategoryRow where
  pk : Nat
  userId : Nat
  deriving DecidableEq

/-- The database state: account rows and the three kinds of ledger rows. -/
structure DB where
  accounts : List Account
  categories : List CategoryRow
  expenses : List ExpenseRow
  incomes : List IncomeRow
  transfers : List TransferRow
  deriving DecidableEq

/-- An unsaved `Expense` instance as passed to `Expense.save`: `pk = none`
means a create, `pk = some k` an update of the stored row `k`. -/
structure ExpenseInput where
  pk : Option Nat
  userId : Nat
  accountId : Nat
  categoryId : Nat
  amount : Int
  deriving DecidableEq

/-- An unsaved `Income` instance as passed to `Income.save`. -/
structure IncomeInput where
  pk : Option Nat
  userId : Nat
  accountId : Nat
  amount : Int
  deriving DecidableEq

/-- An unsaved `Transfer` instance as passed to `Transfer.save`. -/
structure TransferInput where
  pk : Option Nat
  userId : Nat
  fromAccountId : Nat
  toAccountId : Nat
  amount : Int
  deriving DecidableEq

/-- `Account.objects.get(pk=aid)` (first row whose pk matches). -/
def getAccount? (db : DB) (aid : Nat) : Option Account :=
  db.accounts.find? (fun a => a.id == aid)

/-- `Category.objects.get(pk=cid)`. -/
def getCategory? (db : DB) (cid : Nat) : Option CategoryRow :=
  db.categories.find? (fun c => c.pk == cid)

/-- The per-row effect of
`Account.objects.filter(pk=j).update(balance=F('balance') + d)`. -/
def bump (j : Nat) (d : Int) (a : Account) : Account :=
  if a.id = j then { a with balance := a.balance + d } else a

/-- `Account.objects.filter(pk=j).update(balance=F('balance') + d)`: an atomic
relative balance adjustment; rows with a different pk are untouched, a missing
pk is a no-op. -/
def updBalance (db : DB) (j : Nat) (d : Int) : DB :=
  { db with accounts := db.accounts.map (bump j d) }

/-- Error taxonomy: `ValidationError` from `clean`/constraints, object lookup
failure (`DoesNotExist`), and the insufficient-funds `ValidationError` raised
by `Transfer.save`. -/
inductive Err where
  | validation
  | notFound
  | insufficientFunds
  deriving DecidableEq

/-- Largest pk in use (0 when there is none). -/
def maxPk (pks : List Nat) : Nat := pks.foldr max 0

/-- A fresh primary key, as assigned by the database sequence on INSERT. -/
def freshPk (pks : List Nat) : Nat := maxPk pks + 1

/-- `Expense.save` (`expenses/models.py` lines 67-80): `full_clean` (account
and category ownership, non-system account, `amount > 0` check constraint),
then inside `transaction.atomic()` either the create delta, the single
difference delta when the account is unchanged, or reverse-old/apply-new when
the account changed, then the row write. -/
def expenseSave (db : DB) (e : ExpenseInput) : Except (Err × DB) DB :=
  match getAccount? db e.accountId with
  | none => .error (.notFound, db)
  | some acct =>
    match getCategory? db e.categoryId with
    | none => .error (.notFound, db)
    | some cat =>
      if acct.userId ≠ e.userId then .error (.validation, db)
      else if cat.userId ≠ e.userId then .error (.validation, db)
      else if acct.is_system then .error (.validation, db)
      else if e.amount ≤ 0 then .error (.validation, db)
      else
        match e.pk with
        | some pk =>
          match db.expenses.find? (fun x => x.pk == pk) with
          | none => .error (.notFound, db)
          | some prev =>
            let db1 :=
              if prev.accountId ≠ e.accountId then
                updBalance (updBalance db prev.accountId prev.amount) e.accountId (-e.amount)
              else
                updBalance db e.accountId (-(e.amount - prev.amount))
            .ok { db1 with expenses :=
              db1.expenses.map (fun x => if x.pk == pk then ⟨pk, e.userId, e.accountId, e.categoryId, e.amount⟩ else x) }
        | none =>
          let db1 := updBalance db e.accountId (-e.amount)
          .ok { db1 with expenses :=
            db1.expenses ++ [⟨freshPk (db.expenses.map (·.pk)), e.userId, e.accountId, e.categoryId, e.amount⟩] }

/-- `Expense.delete` (lines 82-85): credit the amount back, remove the row. -/
def expenseDelete (db : DB) (pk : Nat) : Except (Err × DB) DB :=
  match db.expenses.find? (fun x => x.pk == pk) with
  | none => .error (.notFound, db)
  | some row =>
    let db1 := updBalance db row.accountId row.amount
    .ok { db1 with expenses := db1.expenses.filter (fun x => ! (x.pk == pk)) }

/-- `Income.save` (lines 109-122): like `Expense.save` with the opposite sign
and no category. -/
def incomeSave (db : DB) (i : IncomeInput) : Except (Err × DB) DB :=
  match getAccount? db i.accountId with
  | none => .error (.notFound, db)
  | some acct =>
    if acct.userId ≠ i.userId then .error (.validation, db)
    else if acct.is_system then .error (.validation, db)
    else if i.amount ≤ 0 then .error (.validation, db)
    else
      match i.pk with
      | some pk =>
        match db.incomes.find? (fun x => x.pk == pk) with
        | none => .error (.notFound, db)
        | some prev =>
          let db1 :=
            if prev.accountId ≠ i.accountId then
              updBalance (updBalance db prev.accountId (-prev.amount)) i.accountId i.amount
            else
              updBalance db i.accountId (i.amount - prev.amount)
          .ok { db1 with incomes :=
            db1.incomes.map (fun x => if x.pk == pk then ⟨pk, i.userId, i.accountId, i.amount⟩ else x) }
      | none =>
        let db1 := updBalance db i.accountId i.amount
        .ok { db1 with incomes :=
          db1.incomes ++ [⟨freshPk (db.incomes.map (·.pk)), i.userId, i.accountId, i.amount⟩] }

/-- `Income.delete` (lines 124-127). -/
def incomeDelete (db : DB) (pk : Nat) : Except (Err × DB) DB :=
  match db.incomes.find? (fun x => x.pk == pk) with
  | none => .error (.notFound, db)
  | some row =>
    let db1 := updBalance db row.accountId (-row.amount)
    .ok { db1 with incomes := db1.incomes.filter (fun x => ! (x.pk == pk)) }

/-- `Transfer._reverse_effect(prev)` (lines 156-158): credit the old
from-account, debit the old to-account. -/
def reverseEffect (db : DB) (prev : TransferRow) : DB :=
  updBalance (updBalance db prev.fromAccountId prev.amount) prev.toAccountId (-prev.amount)

/-- `Transfer._apply_effect()` (lines 160-162): debit the from-account, credit
the to-account. -/
def applyEffectT (db : DB) (t : TransferInput) : DB :=
  updBalance (updBalance db t.fromAccountId (-t.amount)) t.toAccountId t.amount

/-- The explicit restore in the insufficient-funds branch of `Transfer.save`
(lines 187-189): re-apply the just-reversed prior effect exactly. -/
def restorePrev (db : DB) (prev : TransferRow) : DB :=
  updBalance (updBalance db prev.fromAccountId (-prev.amount)) prev.toAccountId prev.amount

/-- The `Transfer` row written by `super().save()` for the instance `t`. -/
def rowOfInput (pk : Nat) (t : TransferInput) : TransferRow :=
  ⟨pk, t.userId, t.fromAccountId, t.toAccountId, t.amount⟩

/-- `Transfer.save` (lines 164-194): `full_clean` (`clean` checks amount > 0,
distinct accounts, ownership of both accounts in that order), then inside
`transaction.atomic()`: lock both accounts, reverse the prior effect when
updating, re-read the locked from-account, funds check unless it is a system
account (on failure restore the reversed prior effect and raise), apply the
new effect and write the row. -/
def transferSave (db : DB) (t : TransferInput) : Except (Err × DB) DB :=
  if t.amount ≤ 0 then .error (.validation, db)
  else if t.fromAccountId = t.toAccountId then .error (.validation, db)
  else
    match getAccount? db t.fromAccountId with
    | none => .error (.notFound, db)
    | some fa0 =>
      match getAccount? db t.toAccountId with
      | none => .error (.notFound, db)
      | some ta0 =>
        if fa0.userId ≠ t.userId then .error (.validation, db)
        else if ta0.userId ≠ t.userId then .error (.validation, db)
        else
          match t.pk with
          | some pk =>
            match db.transfers.find? (fun x => x.pk == pk) with
            | none => .error (.notFound, db)
            | some prev =>
              let db1 := reverseEffect db prev
              match getAccount? db1 t.fromAccountId with
              | none => .error (.notFound, db1)
              | some fa =>
                if fa.is_system = false ∧ fa.balance < t.amount then
                  .error (.insufficientFunds, restorePrev db1 prev)
                else
                  let db2 := applyEffectT db1 t
                  .ok { db2 with transfers :=
                    db2.transfers.map (fun x => if x.pk == pk then rowOfInput pk t else x) }
          | none =>
            match getAccount? db t.fromAccountId with
            | none => .error (.notFound, db)
            | some fa =>
              if fa.is_system = false ∧ fa.balance < t.amount then
                .error (.insufficientFunds, db)
              else
                let db2 := applyEffectT db t
                .ok { db2 with transfers :=
                  db2.transfers ++ [rowOfInput (freshPk (db.transfers.map (·.pk))) t] }

/-- `Transfer.delete` (lines 196-200): re-fetch the row, reverse its effect,
remove it. -/
def transferDelete (db : DB) (pk : Nat) : Except (Err × DB) DB :=
  match db.transfers.find? (fun x => x.pk == pk) with
  | none => .error (.notFound, db)
  | some prev =>
    let db1 := reverseEffect db prev
    .ok { db1 with transfers := db1.transfers.filter (fun x => ! (x.pk == pk)) }

/-- The lookup part of `Account.objects.get_or_create(user=u, is_system=True)`
in `expenses/utils.py`. -/
def systemAccountFor (db : DB) (u : Nat) : Option Account :=
  db.accounts.find? (fun a => a.userId == u && a.is_system)

/-- A fresh account id, as assigned by the database sequence. -/
def freshAccountId (db : DB) : Nat := freshPk (db.accounts.map (·.id))

/-- `get_external_account` (`expenses/utils.py` lines 3-10): one hidden
account per user via `get_or_create(user=u, is_system=True,
defaults={"name": "External (System)", "balance": 0})`. -/
def get_external_account (db : DB) (u : Nat) : Account × DB :=
  match systemAccountFor db u with
  | some a => (a, db)
  | none =>
    let a : Account := ⟨freshAccountId db, u, "External (System)", 0, true⟩
    (a, { db with accounts := db.accounts ++ [a] })

/-- The caller-visible state of a mutation: on failure `transaction.atomic()`
rolls every write back, so the original state is observed. -/
def visible (r : Except (Err × DB) DB) (db : DB) : DB :=
  match r with
  | .ok db2 => db2
  | .error _ => db

/-- One create/update/delete of an Expense, Income, or Transfer. -/
inductive Op where
  | expense (e : ExpenseInput)
  | income (i : IncomeInput)
  | transfer (t : TransferInput)
  | expenseDel (pk : Nat)
  | incomeDel (pk : Nat)
  | transferDel (pk : Nat)
  deriving DecidableEq

/-- The caller-visible effect of one ledger mutation. -/
def applyOp (db : DB) (op : Op) : DB :=
  match op with
  | .expense e => visible (expenseSave db e) db
  | .income i => visible (incomeSave db i) db
  | .transfer t => visible (transferSave db t) db
  | .expenseDel pk => visible (expenseDelete db pk) db
  | .incomeDel pk => visible (incomeDelete db pk) db
  | .transferDel pk => visible (transferDelete db pk) db

/-- Sum of an integer measure over a list of rows. -/
def sumBy {α : Type} (g : α → Int) (l : List α) : Int := (l.map g).sum

/-- The delta an expense row contributes to account `aid`. -/
def expenseDeltaFor (aid : Nat) (e : ExpenseRow) : Int :=
  if e.accountId = aid then e.amount else 0

/-- The delta an income row contributes to account `aid`. -/
def incomeDeltaFor (aid : Nat) (i : IncomeRow) : Int :=
  if i.accountId = aid then i.amount else 0

/-- The delta a transfer row contributes to account `aid`: credited as the
destination, debited as the origin. -/
def transferDeltaFor (aid : Nat) (t : TransferRow) : Int :=
  (if t.toAccountId = aid then t.amount else 0) - (if t.fromAccountId = aid then t.amount else 0)

/-- Sum of the deltas of all currently-persisted ledger rows referencing
account `aid`: incomes plus incoming transfers minus expenses minus outgoing
transfers. -/
def ledgerSum (db : DB) (aid : Nat) : Int :=
  sumBy (incomeDeltaFor aid) db.incomes + sumBy (transferDeltaFor aid) db.transfers
    - sumBy (expenseDeltaFor aid) db.expenses

/-- The balance invariant: every account's cached balance equals the sum of
the deltas of the persisted ledger rows referencing it. -/
def consistent (db : DB) : Prop :=
  ∀ a ∈ db.accounts, a.balance = ledgerSum db a.id

/-- Well-formedness delivered by the database: primary keys are unique. -/
def WF (db : DB) : Prop :=
  (db.expenses.map (·.pk)).Nodup ∧ (db.incomes.map (·.pk)).Nodup ∧
    (db.transfers.map (·.pk)).Nodup

lemma bump_id (j : Nat) (d : Int) (a : Account) : (bump j d a).id = a.id := by
  unfold bump; split <;> rfl

lemma bump_userId (j : Nat) (d : Int) (a : Account) : (bump j d a).userId = a.userId := by
  unfold bump; split <;> rfl

lemma bump_name (j : Nat) (d : Int) (a : Account) : (bump j d a).name = a.name := by
  unfold bump; split <;> rfl

lemma bump_is_system (j : Nat) (d : Int) (a : Account) : (bump j d a).is_system = a.is_system := by
  unfold bump; split <;> rfl

lemma bump_balance (j : Nat) (d : Int) (a : Account) :
    (bump j d a).balance = a.balance + (if a.id = j then d else 0) := by
  unfold bump; split <;> simp_all

lemma bump_bump_same (j : Nat) (d1 d2 : Int) (x : Account) :
    bump j d2 (bump j d1 x) = bump j (d1 + d2) x := by
  obtain ⟨xi, xu, xn, xb, xs⟩ := x
  by_cases h : xi = j <;> simp [bump, h] <;> ring

lemma bump_cancel (p q : Nat) (c e : Int) (x : Account) :
    bump q (-e) (bump p (-c) (bump q e (bump p c x))) = x := by
  obtain ⟨xi, xu, xn, xb, xs⟩ := x
  by_cases h1 : xi = p
  · by_cases h2 : xi = q
    · subst h1; subst h2
      simp [bump]
      ring
    · subst h1
      simp [bump, h2, Ne.symm h2]
  · by_cases h2 : xi = q
    · subst h2
      simp [bump, h1, Ne.symm h1]
    · simp [bump, h1, h2]

lemma getAccount?_updBalance (db : DB) (j : Nat) (d : Int) (i : Nat) :
    getAccount? (updBalance db j d) i = (getAccount? db i).map (bump j d) := by
  simp only [getAccount?, updBalance]
  rw [List.find?_map]
  have hpred : ((fun a : Account => a.id == i) ∘ bump j d) = (fun a : Account => a.id == i) := by
    funext a
    simp [Function.comp, bump_id]
  rw [hpred]

lemma updBalance_shape (db : DB) (j : Nat) (d : Int) :
    ∀ a' ∈ (updBalance db j d).accounts, ∃ a ∈ db.accounts,
      a'.id = a.id ∧ a'.userId = a.userId ∧ a'.name = a.name ∧ a'.is_system = a.is_system ∧
      a'.balance = a.balance + (if a.id = j then d else 0) := by
  intro a' ha'
  simp only [updBalance, List.mem_map] at ha'
  obtain ⟨a, ha, rfl⟩ := ha'
  exact ⟨a, ha, bump_id .., bump_userId .., bump_name .., bump_is_system .., bump_balance ..⟩

lemma ledgerSum_updBalance (db : DB) (j : Nat) (d : Int) (aid : Nat) :
    ledgerSum (updBalance db j d) aid = ledgerSum db aid := rfl

lemma sumBy_append {α : Type} (g : α → Int) (l : List α) (x : α) :
    sumBy g (l ++ [x]) = sumBy g l + g x := by
  simp [sumBy]

lemma map_eq_self_of_filter_nil {α : Type} (p : α → Bool) (r : α) (l : List α)
    (h : l.filter p = []) : l.map (fun y => if p y then r else y) = l := by
  have hn := List.filter_eq_nil_iff.mp h
  calc l.map (fun y => if p y then r else y) = l.map id :=
        List.map_congr_left (fun y hy => by simp [hn y hy])
    _ = l := List.map_id l

lemma sumBy_replace {α : Type} (g : α → Int) (p : α → Bool) (r : α) :
    ∀ (l : List α) (x : α), l.filter p = [x] →
      sumBy g (l.map (fun y => if p y then r else y)) = sumBy g l - g x + g r := by
  intro l
  induction l with
  | nil => intro x hx; simp at hx
  | cons a tl ih =>
    intro x hx
    by_cases hp : p a
    · rw [List.filter_cons_of_pos hp] at hx
      obtain ⟨rfl, htl⟩ : a = x ∧ tl.filter p = [] := by
        constructor
        · exact (List.cons_eq_cons.mp hx).1
        · exact (List.cons_eq_cons.mp hx).2
      simp [sumBy, hp, map_eq_self_of_filter_nil p r tl htl]
      ring
    · rw [List.filter_cons_of_neg hp] at hx
      have hmap : (a :: tl).map (fun y => if p y then r else y) =
          a :: tl.map (fun y => if p y then r else y) := by simp [hp]
      rw [hmap]
      have hrec := ih x hx
      simp only [sumBy, List.map_cons, List.sum_cons] at *
      rw [hrec]
      ring

lemma sumBy_remove {α : Type} (g : α → Int) (p : α → Bool) :
    ∀ (l : List α) (x : α), l.filter p = [x] →
      sumBy g (l.filter (fun y => ! p y)) = sumBy g l - g x := by
  intro l
  induction l with
  | nil => intro x hx; simp at hx
  | cons a tl ih =>
    intro x hx
    by_cases hp : p a
    · rw [List.filter_cons_of_pos hp] at hx
      obtain ⟨rfl, htl⟩ : a = x ∧ tl.filter p = [] := by
        constructor
        · exact (List.cons_eq_cons.mp hx).1
        · exact (List.cons_eq_cons.mp hx).2
      have hn := List.filter_eq_nil_iff.mp htl
      have : tl.filter (fun y => ! p y) = tl :=
        List.filter_eq_self.mpr (fun y hy => by simp [hn y hy])
      simp [sumBy, hp, this]
    · rw [List.filter_cons_of_neg hp] at hx
      have : (a :: tl).filter (fun y => ! p y) = a :: tl.filter (fun y => ! p y) := by
        simp [List.filter_cons, hp]
      rw [this]
      simp only [sumBy, List.map_cons, List.sum_cons] at *
      rw [ih x hx]
      ring

lemma filter_eq_single {α : Type} (f : α → Nat) (k : Nat) :
    ∀ (l : List α), (l.map f).Nodup → ∀ x, l.find? (fun y => f y == k) = some x →
      l.filter (fun y => f y == k) = [x] := by
  intro l
  induction l with
  | nil => intro _ x hx; simp at hx
  | cons a tl ih =>
    intro hnd x hx
    simp only [List.map_cons, List.nodup_cons] at hnd
    obtain ⟨hna, ndtl⟩ := hnd
    by_cases ha : f a = k
    · rw [List.find?_cons_of_pos tl (by simp [ha])] at hx
      obtain rfl : a = x := by injection hx
      rw [List.filter_cons_of_pos (by simp [ha])]
      have : tl.filter (fun y => f y == k) = [] := by
        apply List.filter_eq_nil_iff.mpr
        intro y hy hyk
        apply hna
        have : f y = k := by simpa using hyk
        rw [← ha] at this
        exact this ▸ List.mem_map_of_mem f hy
      rw [this]
    · rw [List.find?_cons_of_neg tl (by simp [ha])] at hx
      rw [List.filter_cons_of_neg (by simp [ha])]
      exact ih ndtl x hx

lemma le_maxPk : ∀ (pks : List Nat), ∀ x ∈ pks, x ≤ maxPk pks := by
  intro pks
  induction pks with
  | nil => simp
  | cons a tl ih =>
    intro x hx
    cases hx with
    | head => exact le_max_left ..
    | tail _ hx => exact le_trans (ih x hx) (le_max_right ..)

lemma lt_freshPk (pks : List Nat) (x : Nat) (hx : x ∈ pks) : x < freshPk pks :=
  Nat.lt_succ_of_le (le_maxPk pks x hx)

lemma map4_cancel (p q : Nat) (c e : Int) (l : List Account) :
    ((((l.map (bump p c)).map (bump q e)).map (bump p (-c))).map (bump q (-e))) = l := by
  induction l with
  | nil => rfl
  | cons x xs ih =>
    simp only [List.map_cons]
    rw [bump_cancel p q c e x, ih]

lemma restore_reverse_accounts (db : DB) (prev : TransferRow) :
    (restorePrev (reverseEffect db prev) prev).accounts = db.accounts := by
  simp only [restorePrev, reverseEffect, updBalance]
  have := map4_cancel prev.fromAccountId prev.toAccountId prev.amount (-prev.amount) db.accounts
  simpa using this

lemma reverse_apply_accounts (db : DB) (t : TransferInput) (pk : Nat) :
    (reverseEffect (applyEffectT db t) (rowOfInput pk t)).accounts = db.accounts := by
  simp only [reverseEffect, applyEffectT, updBalance, rowOfInput]
  have := map4_cancel t.fromAccountId t.toAccountId (-t.amount) t.amount db.accounts
  simpa using this

lemma map_bump_bump_same (j : Nat) (d1 d2 : Int) (l : List Account) :
    (l.map (bump j d1)).map (bump j d2) = l.map (bump j (d1 + d2)) := by
  rw [List.map_map]
  exact List.map_congr_left fun x _ => bump_bump_same j d1 d2 x

lemma getAccount?_eq_of_accounts (db db' : DB) (h : db'.accounts = db.accounts) (i : Nat) :
    getAccount? db' i = getAccount? db i := by
  unfold getAccount?
  rw [h]

/-- Whether a mutation committed. -/
def saveOk (r : Except (Err × DB) DB) : Bool :=
  match r with
  | .ok _ => true
  | .error _ => false

/-- C7: `get_external_account` is idempotent per user: if the user already has
a system account it is returned with the state unchanged (never a duplicate);
the first call creates exactly one hidden (`is_system`) account with balance 0
and the fixed display name, and a repeated call returns that same account with
no further state change. -/
theorem c7_get_external_account_idempotent (db : DB) (u : Nat) :
    (∀ a0, systemAccountFor db u = some a0 → get_external_account db u = (a0, db)) ∧
    (systemAccountFor db u = none →
      (get_external_account db u).1.userId = u ∧
      (get_external_account db u).1.balance = 0 ∧
      (get_external_account db u).1.is_system = true ∧
      (get_external_account db u).1.name = "External (System)" ∧
      (get_external_account db u).2.accounts = db.accounts ++ [(get_external_account db u).1]) ∧
    get_external_account (get_external_account db u).2 u =
      ((get_external_account db u).1, (get_external_account db u).2) := by
  refine ⟨?_, ?_, ?_⟩
  · intro a0 h
    simp [get_external_account, h]
  · intro h
    simp [get_external_account, h]
  · cases h : systemAccountFor db u with
    | some a0 =>
      simp [get_external_account, h]
    | none =>
      have h' : db.accounts.find? (fun a => a.userId == u && a.is_system) = none := h
      have hfind : systemAccountFor (get_external_account db u).2 u =
          some (get_external_account db u).1 := by
        simp only [get_external_account, systemAccountFor, h']
        rw [List.find?_append, h']
        simp
      set E := get_external_account db u with hE
      simp only [get_external_account]
      rw [hfind]

/-- Witness for C7 at a concrete state: a user with no system account. -/
theorem c7_witness :
    systemAccountFor ⟨[⟨1, 1, "A", 0, false⟩], [], [], [], []⟩ 1 = none ∧
    (get_external_account ⟨[⟨1, 1, "A", 0, false⟩], [], [], [], []⟩ 1).1.balance = 0 := by
  refine ⟨by rfl, ?_⟩
  have h := (c7_get_external_account_idempotent ⟨[⟨1, 1, "A", 0, false⟩], [], [], [], []⟩ 1).2.1
    (by rfl)
  exact h.2.1

/-- C9: every Expense or Income create/update runs full validation (ownership
of account/category, account not a system account, positive amount) before any
balance write, so every failing save aborts with the whole state, in
particular every account balance, unchanged. -/
theorem c9_validation_failure_no_side_effects (db : DB) (e : ExpenseInput) (i : IncomeInput)
    (ke ki : Err) (dbe dbi : DB) :
    (expenseSave db e = .error (ke, dbe) → dbe = db) ∧
    (incomeSave db i = .error (ki, dbi) → dbi = db) := by
  constructor
  · intro h
    unfold expenseSave at h
    repeat' split at h
    all_goals simp_all
  · intro h
    unfold incomeSave at h
    repeat' split at h
    all_goals simp_all

/-- A small concrete state for the C9 witness: one account and one category
owned by user 1. -/
def w9db : DB := ⟨[⟨1, 1, "A", 0, false⟩], [⟨1, 1⟩], [], [], []⟩

/-- Witness for C9: an expense and an income whose account belongs to another
user are rejected with the state unchanged. -/
theorem c9_witness :
    expenseSave w9db ⟨none, 2, 1, 1, 5⟩ = .error (.validation, w9db) ∧ w9db = w9db := by
  refine ⟨by rfl, ?_⟩
  exact (c9_validation_failure_no_side_effects w9db ⟨none, 2, 1, 1, 5⟩ ⟨none, 2, 1, 5⟩
    .validation .validation w9db w9db).1 (by rfl)

lemma reverseEffect_accounts_congr (X Y : DB) (r : TransferRow) (h : X.accounts = Y.accounts) :
    (reverseEffect X r).accounts = (reverseEffect Y r).accounts := by
  simp only [reverseEffect, updBalance]
  rw [h]

/-- C1: an update of an existing Transfer that fails the funds check (the
from-account, re-read after the reversal of the prior effect, is not a system
account and its balance is below the new amount) aborts with the
insufficient-funds error, and the state at the abort — prior effect reversed
and then explicitly re-applied — has every account balance byte-identical to
the pre-attempt state. -/
theorem c1_failed_update_restores_balances (db : DB) (t : TransferInput) (pk : Nat)
    (prev : TransferRow) (fa fa0 ta0 : Account)
    (hpk : t.pk = some pk)
    (hamt : 0 < t.amount)
    (hne : t.fromAccountId ≠ t.toAccountId)
    (hfa0 : getAccount? db t.fromAccountId = some fa0) (hofa : fa0.userId = t.userId)
    (hta0 : getAccount? db t.toAccountId = some ta0) (hota : ta0.userId = t.userId)
    (hfind : db.transfers.find? (fun x => x.pk == pk) = some prev)
    (hfa : getAccount? (reverseEffect db prev) t.fromAccountId = some fa)
    (hsys : fa.is_system = false) (hlt : fa.balance < t.amount) :
    transferSave db t =
      .error (.insufficientFunds, restorePrev (reverseEffect db prev) prev) ∧
    (restorePrev (reverseEffect db prev) prev).accounts = db.accounts := by
  constructor
  · simp [transferSave, hpk, hfind, hfa0, hta0, hfa, hofa, hota, hsys, hlt,
      not_le.mpr hamt, hne]
  · exact restore_reverse_accounts db prev

/-- The concrete state for the C1 witness: a prior transfer of 300 from A
(now 700) to B (now 300). -/
def w1db : DB :=
  ⟨[⟨1, 1, "A", 700, false⟩, ⟨2, 1, "B", 300, false⟩], [], [], [], [⟨1, 1, 1, 2, 300⟩]⟩

/-- Witness for C1: raising the transfer's amount to 10000 exceeds the
post-reversal balance 1000, aborts with the insufficient-funds error, and the
pre-rollback state already carries the original balances. -/
theorem c1_witness :
    transferSave w1db ⟨some 1, 1, 1, 2, 10000⟩ =
      .error (.insufficientFunds, restorePrev (reverseEffect w1db ⟨1, 1, 1, 2, 300⟩) ⟨1, 1, 1, 2, 300⟩) ∧
    (restorePrev (reverseEffect w1db ⟨1, 1, 1, 2, 300⟩) ⟨1, 1, 1, 2, 300⟩).accounts = w1db.accounts :=
  c1_failed_update_restores_balances w1db ⟨some 1, 1, 1, 2, 10000⟩ 1 ⟨1, 1, 1, 2, 300⟩
    ⟨1, 1, "A", 1000, false⟩ ⟨1, 1, "A", 700, false⟩ ⟨2, 1, "B", 300, false⟩
    rfl (by decide) (by decide) rfl rfl rfl rfl rfl rfl rfl (by decide)

lemma transferSave_create_shape (db : DB) (t : TransferInput) (db1 : DB)
    (hpk : t.pk = none) (h : transferSave db t = .ok db1) :
    db1 = { applyEffectT db t with
      transfers := db.transfers ++ [rowOfInput (freshPk (db.transfers.map (·.pk))) t] } := by
  unfold transferSave at h
  rw [hpk] at h
  simp only [] at h
  split at h
  · exact absurd h (by simp)
  split at h
  · exact absurd h (by simp)
  split at h
  · exact absurd h (by simp)
  split at h
  · exact absurd h (by simp)
  split at h
  · exact absurd h (by simp)
  split at h
  · exact absurd h (by simp)
  split at h
  · exact absurd h (by simp)
  split at h
  · exact absurd h (by simp)
  injection h with h
  exact h.symm

lemma transferSave_update_shape (db : DB) (t : TransferInput) (db1 : DB) (pk : Nat)
    (hpk : t.pk = some pk) (h : transferSave db t = .ok db1) :
    ∃ prev, db.transfers.find? (fun x => x.pk == pk) = some prev ∧
      db1 = { applyEffectT (reverseEffect db prev) t with
        transfers := db.transfers.map (fun x => if x.pk == pk then rowOfInput pk t else x) } := by
  unfold transferSave at h
  rw [hpk] at h
  simp only [] at h
  split at h
  · exact absurd h (by simp)
  split at h
  · exact absurd h (by simp)
  split at h
  · exact absurd h (by simp)
  split at h
  · exact absurd h (by simp)
  split at h
  · exact absurd h (by simp)
  split at h
  · exact absurd h (by simp)
  split at h
  · exact absurd h (by simp)
  rename_i prev hfind
  try simp only [] at h
  split at h
  · exact absurd h (by simp)
  split at h
  · exact absurd h (by simp)
  injection h with h
  exact ⟨prev, hfind, h.symm⟩

lemma transferDelete_shape (db : DB) (pk : Nat) (prev : TransferRow)
    (hfind : db.transfers.find? (fun x => x.pk == pk) = some prev) :
    transferDelete db pk = .ok { reverseEffect db prev with
      transfers := db.transfers.filter (fun x => ! (x.pk == pk)) } := by
  unfold transferDelete
  rw [hfind]
  rfl

lemma expenseDelete_shape (db : DB) (pk : Nat) (row : ExpenseRow)
    (hfind : db.expenses.find? (fun x => x.pk == pk) = some row) :
    expenseDelete db pk = .ok { updBalance db row.accountId row.amount with
      expenses := db.expenses.filter (fun x => ! (x.pk == pk)) } := by
  unfold expenseDelete
  rw [hfind]
  rfl

lemma incomeDelete_shape (db : DB) (pk : Nat) (row : IncomeRow)
    (hfind : db.incomes.find? (fun x => x.pk == pk) = some row) :
    incomeDelete db pk = .ok { updBalance db row.accountId (-row.amount) with
      incomes := db.incomes.filter (fun x => ! (x.pk == pk)) } := by
  unfold incomeDelete
  rw [hfind]
  rfl

lemma expenseSave_create_shape (db : DB) (e : ExpenseInput) (db' : DB)
    (hpk : e.pk = none) (h : expenseSave db e = .ok db') :
    db' = { updBalance db e.accountId (-e.amount) with
      expenses := db.expenses ++
        [⟨freshPk (db.expenses.map (·.pk)), e.userId, e.accountId, e.categoryId, e.amount⟩] } := by
  unfold expenseSave at h
  rw [hpk] at h
  simp only [] at h
  split at h
  · exact absurd h (by simp)
  split at h
  · exact absurd h (by simp)
  split at h
  · exact absurd h (by simp)
  split at h
  · exact absurd h (by simp)
  split at h
  · exact absurd h (by simp)
  split at h
  · exact absurd h (by simp)
  injection h with h
  exact h.symm

lemma expenseSave_update_shape (db : DB) (e : ExpenseInput) (db' : DB) (pk : Nat)
    (hpk : e.pk = some pk) (h : expenseSave db e = .ok db') :
    ∃ prev, db.expenses.find? (fun x => x.pk == pk) = some prev ∧
      ((prev.accountId ≠ e.accountId ∧
        db' = { updBalance (updBalance db prev.accountId prev.amount) e.accountId (-e.amount) with
          expenses := db.expenses.map
            (fun x => if x.pk == pk then ⟨pk, e.userId, e.accountId, e.categoryId, e.amount⟩ else x) }) ∨
       (prev.accountId = e.accountId ∧
        db' = { updBalance db e.accountId (-(e.amount - prev.amount)) with
          expenses := db.expenses.map
            (fun x => if x.pk == pk then ⟨pk, e.userId, e.accountId, e.categoryId, e.amount⟩ else x) })) := by
  unfold expenseSave at h
  rw [hpk] at h
  simp only [] at h
  split at h
  · exact absurd h (by simp)
  split at h
  · exact absurd h (by simp)
  split at h
  · exact absurd h (by simp)
  split at h
  · exact absurd h (by simp)
  split at h
  · exact absurd h (by simp)
  split at h
  · exact absurd h (by simp)
  split at h
  · exact absurd h (by simp)
  rename_i prev hfind
  try simp only [] at h
  refine ⟨prev, hfind, ?_⟩
  split at h
  · rename_i hacct
    injection h with h
    exact Or.inl ⟨hacct, h.symm⟩
  · rename_i hacct
    injection h with h
    exact Or.inr ⟨not_ne_iff.mp hacct, h.symm⟩

lemma incomeSave_create_shape (db : DB) (i : IncomeInput) (db' : DB)
    (hpk : i.pk = none) (h : incomeSave db i = .ok db') :
    db' = { updBalance db i.accountId i.amount with
      incomes := db.incomes ++
        [⟨freshPk (db.incomes.map (·.pk)), i.userId, i.accountId, i.amount⟩] } := by
  unfold incomeSave at h
  rw [hpk] at h
  simp only [] at h
  split at h
  · exact absurd h (by simp)
  split at h
  · exact absurd h (by simp)
  split at h
  · exact absurd h (by simp)
  split at h
  · exact absurd h (by simp)
  injection h with h
  exact h.symm

lemma incomeSave_update_shape (db : DB) (i : IncomeInput) (db' : DB) (pk : Nat)
    (hpk : i.pk = some pk) (h : incomeSave db i = .ok db') :
    ∃ prev, db.incomes.find? (fun x => x.pk == pk) = some prev ∧
      ((prev.accountId ≠ i.accountId ∧
        db' = { updBalance (updBalance db prev.accountId (-prev.amount)) i.accountId i.amount with
          incomes := db.incomes.map
            (fun x => if x.pk == pk then ⟨pk, i.userId, i.accountId, i.amount⟩ else x) }) ∨
       (prev.accountId = i.accountId ∧
        db' = { updBalance db i.accountId (i.amount - prev.amount) with
          incomes := db.incomes.map
            (fun x => if x.pk == pk then ⟨pk, i.userId, i.accountId, i.amount⟩ else x) })) := by
  unfold incomeSave at h
  rw [hpk] at h
  simp only [] at h
  split at h
  · exact absurd h (by simp)
  split at h
  · exact absurd h (by simp)
  split at h
  · exact absurd h (by simp)
  split at h
  · exact absurd h (by simp)
  split at h
  · exact absurd h (by simp)
  rename_i prev hfind
  try simp only [] at h
  refine ⟨prev, hfind, ?_⟩
  split at h
  · rename_i hacct
    injection h with h
    exact Or.inl ⟨hacct, h.symm⟩
  · rename_i hacct
    injection h with h
    exact Or.inr ⟨not_ne_iff.mp hacct, h.symm⟩

/-- C8: deleting a Transfer reverses its effect exactly and removes the row
(the from-account gains the amount, the to-account loses it), and a create
followed by a delete restores both the account balances and the transfer rows
to exactly the pre-create state. -/
theorem c8_transfer_delete_reverses :
    (∀ (db : DB) (pk : Nat) (prev : TransferRow),
      db.transfers.find? (fun x => x.pk == pk) = some prev →
      ∃ db', transferDelete db pk = .ok db' ∧
        db'.accounts = (reverseEffect db prev).accounts ∧
        (∀ a' ∈ db'.accounts, ∃ a ∈ db.accounts, a'.id = a.id ∧
          a'.balance = a.balance + (if a.id = prev.fromAccountId then prev.amount else 0)
            + (if a.id = prev.toAccountId then -prev.amount else 0)) ∧
        db'.transfers = db.transfers.filter (fun x => ! (x.pk == pk))) ∧
    (∀ (db0 db1 : DB) (t : TransferInput), t.pk = none → transferSave db0 t = .ok db1 →
      ∃ db2, transferDelete db1 (freshPk (db0.transfers.map (·.pk))) = .ok db2 ∧
        db2.accounts = db0.accounts ∧ db2.transfers = db0.transfers) := by
  constructor
  · intro db pk prev hfind
    refine ⟨_, transferDelete_shape db pk prev hfind, rfl, ?_, rfl⟩
    intro a' ha'
    obtain ⟨a1, ha1, hid1, _, _, _, hbal1⟩ :=
      updBalance_shape (updBalance db prev.fromAccountId prev.amount) prev.toAccountId
        (-prev.amount) a' ha'
    obtain ⟨a, ha, hid2, _, _, _, hbal2⟩ :=
      updBalance_shape db prev.fromAccountId prev.amount a1 ha1
    refine ⟨a, ha, hid1.trans hid2, ?_⟩
    rw [hbal1, hbal2, hid2]
    try ring
  · intro db0 db1 t hpk hsave
    obtain rfl := transferSave_create_shape db0 t db1 hpk hsave
    set fresh := freshPk (db0.transfers.map (·.pk)) with hfresh
    have hnotin : ∀ x ∈ db0.transfers, (x.pk == fresh) = false := by
      intro x hx
      have : x.pk < fresh := lt_freshPk _ _ (List.mem_map_of_mem (·.pk) hx)
      simp [Nat.ne_of_lt this]
    have hnone : db0.transfers.find? (fun x => x.pk == fresh) = none := by
      apply List.find?_eq_none.mpr
      intro x hx
      simp [hnotin x hx]
    have hfindrow : ({ applyEffectT db0 t with
        transfers := db0.transfers ++ [rowOfInput fresh t] } : DB).transfers.find?
          (fun x => x.pk == fresh) = some (rowOfInput fresh t) := by
      show (db0.transfers ++ [rowOfInput fresh t]).find? (fun x => x.pk == fresh) = _
      rw [List.find?_append, hnone]
      simp [rowOfInput]
    refine ⟨_, transferDelete_shape _ fresh (rowOfInput fresh t) hfindrow, ?_, ?_⟩
    · have h1 : (reverseEffect { applyEffectT db0 t with
          transfers := db0.transfers ++ [rowOfInput fresh t] } (rowOfInput fresh t)).accounts =
          (reverseEffect (applyEffectT db0 t) (rowOfInput fresh t)).accounts :=
        reverseEffect_accounts_congr _ _ _ rfl
      show (reverseEffect _ (rowOfInput fresh t)).accounts = db0.accounts
      rw [h1, reverse_apply_accounts]
    · show (db0.transfers ++ [rowOfInput fresh t]).filter (fun x => ! (x.pk == fresh)) =
        db0.transfers
      rw [List.filter_append]
      have h3 : db0.transfers.filter (fun x => ! (x.pk == fresh)) = db0.transfers :=
        List.filter_eq_self.mpr (fun x hx => by simp [hnotin x hx])
      have h4 : [rowOfInput fresh t].filter (fun x => ! (x.pk == fresh)) = [] := by
        simp [rowOfInput]
      rw [h3, h4, List.append_nil]

/-- The concrete state for the C8 witness: A at 1000 and B at 200, about to
receive a transfer of 300. -/
def w8db : DB := ⟨[⟨1, 1, "A", 1000, false⟩, ⟨2, 1, "B", 200, false⟩], [], [], [], []⟩

/-- Witness for C8: a transfer of 300 from A to B takes A to 700 and B to 500;
deleting it restores A to 1000 and B to 200 and removes the row. -/
theorem c8_witness :
    transferSave w8db ⟨none, 1, 1, 2, 300⟩ =
      .ok ⟨[⟨1, 1, "A", 700, false⟩, ⟨2, 1, "B", 500, false⟩], [], [], [], [⟨1, 1, 1, 2, 300⟩]⟩ ∧
    ∃ db2, transferDelete ⟨[⟨1, 1, "A", 700, false⟩, ⟨2, 1, "B", 500, false⟩], [], [], [],
        [⟨1, 1, 1, 2, 300⟩]⟩ 1 = .ok db2 ∧
      db2.accounts = w8db.accounts ∧ db2.transfers = w8db.transfers := by
  refine ⟨by rfl, ?_⟩
  exact c8_transfer_delete_reverses.2 w8db _ ⟨none, 1, 1, 2, 300⟩ rfl (by rfl)

lemma applyEffectT_accounts_congr (X Y : DB) (t : TransferInput) (h : X.accounts = Y.accounts) :
    (applyEffectT X t).accounts = (applyEffectT Y t).accounts := by
  simp only [applyEffectT, updBalance]
  rw [h]

lemma saveOk_iff (r : Except (Err × DB) DB) : saveOk r = true ↔ ∃ db', r = .ok db' := by
  cases r <;> simp [saveOk]

lemma getAccount?_some_id (db : DB) (i : Nat) (a : Account)
    (h : getAccount? db i = some a) : a.id = i := by
  have := List.find?_some h
  simpa using this

lemma getAccount?_reverseEffect (db : DB) (r : TransferRow) (i : Nat) :
    getAccount? (reverseEffect db r) i =
      (getAccount? db i).map
        (fun a => bump r.toAccountId (-r.amount) (bump r.fromAccountId r.amount a)) := by
  unfold reverseEffect
  rw [getAccount?_updBalance, getAccount?_updBalance, Option.map_map]
  rfl

lemma transferSave_create_ok_iff (db : DB) (t : TransferInput) (hpk : t.pk = none) :
    (∃ db', transferSave db t = .ok db') ↔
      (0 < t.amount ∧ t.fromAccountId ≠ t.toAccountId ∧
        (∃ fa0, getAccount? db t.fromAccountId = some fa0 ∧ fa0.userId = t.userId) ∧
        (∃ ta0, getAccount? db t.toAccountId = some ta0 ∧ ta0.userId = t.userId)) ∧
      (∃ fa, getAccount? db t.fromAccountId = some fa ∧
        (fa.is_system = true ∨ t.amount ≤ fa.balance)) := by
  constructor
  · rintro ⟨db', h⟩
    unfold transferSave at h
    rw [hpk] at h
    simp only [] at h
    split at h
    · exact absurd h (by simp)
    rename_i hamt
    split at h
    · exact absurd h (by simp)
    rename_i hne
    split at h
    · exact absurd h (by simp)
    rename_i fa0 hfa0
    split at h
    · exact absurd h (by simp)
    rename_i ta0 hta0
    split at h
    · exact absurd h (by simp)
    rename_i hofa
    split at h
    · exact absurd h (by simp)
    rename_i hota
    split at h
    · exact absurd h (by simp)
    rename_i fa hfa
    injection hfa with hfaeq
    subst hfaeq
    split at h
    · exact absurd h (by simp)
    rename_i hfunds
    refine ⟨⟨by omega, hne, ⟨fa0, hfa0, not_ne_iff.mp hofa⟩, ⟨ta0, hta0, not_ne_iff.mp hota⟩⟩,
      fa0, hfa0, ?_⟩
    cases hsys : fa0.is_system
    · right
      have : ¬ fa0.balance < t.amount := fun hlt => hfunds ⟨hsys, hlt⟩
      omega
    · left
      rfl
  · rintro ⟨⟨hamt, hne, ⟨fa0, hfa0, hofa⟩, ⟨ta0, hta0, hota⟩⟩, fa, hfa, hcond⟩
    rw [hfa0] at hfa
    injection hfa with hfaeq
    subst hfaeq
    have hfunds : ¬(fa0.is_system = false ∧ fa0.balance < t.amount) := by
      rcases hcond with h | h
      · rintro ⟨hf, _⟩
        rw [h] at hf
        exact absurd hf (by simp)
      · rintro ⟨_, hlt⟩
        omega
    refine ⟨{ applyEffectT db t with
      transfers := db.transfers ++ [rowOfInput (freshPk (db.transfers.map (·.pk))) t] }, ?_⟩
    simp [transferSave, hpk, hfa0, hta0, hofa, hota, hne, not_le.mpr hamt, hfunds]
    try rfl

lemma transferSave_update_ok_iff (db : DB) (t : TransferInput) (pk : Nat) (prev : TransferRow)
    (hpk : t.pk = some pk) (hfind : db.transfers.find? (fun x => x.pk == pk) = some prev) :
    (∃ db', transferSave db t = .ok db') ↔
      (0 < t.amount ∧ t.fromAccountId ≠ t.toAccountId ∧
        (∃ fa0, getAccount? db t.fromAccountId = some fa0 ∧ fa0.userId = t.userId) ∧
        (∃ ta0, getAccount? db t.toAccountId = some ta0 ∧ ta0.userId = t.userId)) ∧
      (∃ fa, getAccount? (reverseEffect db prev) t.fromAccountId = some fa ∧
        (fa.is_system = true ∨ t.amount ≤ fa.balance)) := by
  constructor
  · rintro ⟨db', h⟩
    unfold transferSave at h
    rw [hpk] at h
    simp only [] at h
    split at h
    · exact absurd h (by simp)
    rename_i hamt
    split at h
    · exact absurd h (by simp)
    rename_i hne
    split at h
    · exact absurd h (by simp)
    rename_i fa0 hfa0
    split at h
    · exact absurd h (by simp)
    rename_i ta0 hta0
    split at h
    · exact absurd h (by simp)
    rename_i hofa
    split at h
    · exact absurd h (by simp)
    rename_i hota
    split at h
    · exact absurd h (by simp)
    rename_i prev2 hfind2
    rw [hfind] at hfind2
    obtain rfl : prev = prev2 := by injection hfind2
    try simp only [] at h
    split at h
    · exact absurd h (by simp)
    rename_i fa hfa
    split at h
    · exact absurd h (by simp)
    rename_i hfunds
    refine ⟨⟨by omega, hne, ⟨fa0, hfa0, not_ne_iff.mp hofa⟩, ⟨ta0, hta0, not_ne_iff.mp hota⟩⟩,
      fa, hfa, ?_⟩
    cases hsys : fa.is_system
    · right
      have : ¬ fa.balance < t.amount := fun hlt => hfunds ⟨hsys, hlt⟩
      omega
    · left
      rfl
  · rintro ⟨⟨hamt, hne, ⟨fa0, hfa0, hofa⟩, ⟨ta0, hta0, hota⟩⟩, fa, hfa, hcond⟩
    have hfunds : ¬(fa.is_system = false ∧ fa.balance < t.amount) := by
      rcases hcond with h | h
      · rintro ⟨hf, _⟩
        rw [h] at hf
        exact absurd hf (by simp)
      · rintro ⟨_, hlt⟩
        omega
    refine ⟨{ applyEffectT (reverseEffect db prev) t with
      transfers := db.transfers.map (fun x => if x.pk == pk then rowOfInput pk t else x) }, ?_⟩
    simp [transferSave, hpk, hfind, hfa0, hta0, hfa, hofa, hota, hne, not_le.mpr hamt, hfunds]
    try rfl

/-- The spec's balance update for an Expense edit, written as the full
reverse-then-reapply: reverse the old amount against the old account, apply
the new amount against the new account. -/
def specFullReverseReapplyExpense (db : DB) (prev : ExpenseRow) (e : ExpenseInput) : DB :=
  updBalance (updBalance db prev.accountId prev.amount) e.accountId (-e.amount)

/-- The spec's balance update for an Income edit, written as the full
reverse-then-reapply. -/
def specFullReverseReapplyIncome (db : DB) (prev : IncomeRow) (i : IncomeInput) : DB :=
  updBalance (updBalance db prev.accountId (-prev.amount)) i.accountId i.amount

/-- C5: every successful Expense or Income update leaves balances byte-identical
to the full reverse-then-reapply of the spec: when the account changed the old
amount is reversed on the old account and the new amount applied on the new
account; when the account is unchanged the single applied difference produces
the same balances. -/
theorem c5_update_matches_reverse_reapply :
    (∀ (db : DB) (e : ExpenseInput) (pk : Nat) (prev : ExpenseRow) (db' : DB),
      e.pk = some pk → db.expenses.find? (fun x => x.pk == pk) = some prev →
      expenseSave db e = .ok db' →
      db'.accounts = (specFullReverseReapplyExpense db prev e).accounts) ∧
    (∀ (db : DB) (i : IncomeInput) (pk : Nat) (prev : IncomeRow) (db' : DB),
      i.pk = some pk → db.incomes.find? (fun x => x.pk == pk) = some prev →
      incomeSave db i = .ok db' →
      db'.accounts = (specFullReverseReapplyIncome db prev i).accounts) := by
  constructor
  · intro db e pk prev db' hpk hfind hok
    obtain ⟨prev2, hfind2, hcase⟩ := expenseSave_update_shape db e db' pk hpk hok
    rw [hfind] at hfind2
    obtain rfl : prev = prev2 := by injection hfind2
    rcases hcase with ⟨hne, rfl⟩ | ⟨heq, rfl⟩
    · rfl
    · show (updBalance db e.accountId (-(e.amount - prev.amount))).accounts =
        (updBalance (updBalance db prev.accountId prev.amount) e.accountId (-e.amount)).accounts
      have harith : -(e.amount - prev.amount) = prev.amount + -e.amount := by ring
      rw [harith, heq]
      exact (map_bump_bump_same e.accountId prev.amount (-e.amount) db.accounts).symm
  · intro db i pk prev db' hpk hfind hok
    obtain ⟨prev2, hfind2, hcase⟩ := incomeSave_update_shape db i db' pk hpk hok
    rw [hfind] at hfind2
    obtain rfl : prev = prev2 := by injection hfind2
    rcases hcase with ⟨hne, rfl⟩ | ⟨heq, rfl⟩
    · rfl
    · show (updBalance db i.accountId (i.amount - prev.amount)).accounts =
        (updBalance (updBalance db prev.accountId (-prev.amount)) i.accountId i.amount).accounts
      have harith : i.amount - prev.amount = -prev.amount + i.amount := by ring
      rw [harith, heq]
      exact (map_bump_bump_same i.accountId (-prev.amount) i.amount db.accounts).symm

/-- The concrete state for the C5 witness: account A carries an expense of
100, account B is untouched. -/
def w5db : DB :=
  ⟨[⟨1, 1, "A", -100, false⟩, ⟨2, 1, "B", 50, false⟩], [⟨1, 1⟩], [⟨1, 1, 1, 1, 100⟩], [], []⟩

/-- Witness for C5: moving the expense to account B with amount 150 refunds A
(back to 0, as if the expense never existed) and charges B by 150, exactly the
spec's reverse-then-reapply balances. -/
theorem c5_witness :
    expenseSave w5db ⟨some 1, 1, 2, 1, 150⟩ =
      .ok ⟨[⟨1, 1, "A", 0, false⟩, ⟨2, 1, "B", -100, false⟩], [⟨1, 1⟩], [⟨1, 1, 2, 1, 150⟩], [], []⟩ ∧
    ([⟨1, 1, "A", 0, false⟩, ⟨2, 1, "B", -100, false⟩] : List Account) =
      (specFullReverseReapplyExpense w5db ⟨1, 1, 1, 1, 100⟩ ⟨some 1, 1, 2, 1, 150⟩).accounts := by
  refine ⟨by rfl, ?_⟩
  exact c5_update_matches_reverse_reapply.1 w5db ⟨some 1, 1, 2, 1, 150⟩ 1 ⟨1, 1, 1, 1, 100⟩
    ⟨[⟨1, 1, "A", 0, false⟩, ⟨2, 1, "B", -100, false⟩], [⟨1, 1⟩], [⟨1, 1, 2, 1, 150⟩], [], []⟩
    rfl rfl (by rfl)

lemma exists_owner_reverseEffect (db : DB) (r : TransferRow) (i u : Nat) :
    (∃ a, getAccount? (reverseEffect db r) i = some a ∧ a.userId = u) ↔
    (∃ a, getAccount? db i = some a ∧ a.userId = u) := by
  rw [getAccount?_reverseEffect]
  constructor
  · rintro ⟨a', ha', hu⟩
    rcases Option.map_eq_some'.mp ha' with ⟨a, ha, rfl⟩
    refine ⟨a, ha, ?_⟩
    rw [← hu, bump_userId, bump_userId]
  · rintro ⟨a, ha, hu⟩
    refine ⟨_, by rw [ha]; rfl, ?_⟩
    rw [bump_userId, bump_userId]
    exact hu

/-- C3: a successful update of an existing Transfer first fully reverses the
prior effect and only then evaluates and applies the new one, so it is
accepted exactly when a fresh create of the new transfer would be accepted on
the state where the old transfer was deleted, and on success the end balances
equal those of that delete-then-create state; decreasing the amount or
redirecting accounts is therefore never rejected because of the transfer's
own prior effect. -/
theorem c3_update_evaluated_as_if_never_existed (db : DB) (t : TransferInput) (pk : Nat)
    (prev : TransferRow) (dbd : DB)
    (hpk : t.pk = some pk)
    (hfind : db.transfers.find? (fun x => x.pk == pk) = some prev)
    (hdel : transferDelete db pk = .ok dbd) :
    ((∃ db1, transferSave db t = .ok db1) ↔
      (∃ db2, transferSave dbd { t with pk := none } = .ok db2)) ∧
    (∀ db1 db2, transferSave db t = .ok db1 →
      transferSave dbd { t with pk := none } = .ok db2 →
      db1.accounts = db2.accounts) := by
  have hshape := transferDelete_shape db pk prev hfind
  rw [hdel] at hshape
  obtain rfl : dbd = _ := by injection hshape
  constructor
  · rw [transferSave_update_ok_iff db t pk prev hpk hfind,
        transferSave_create_ok_iff _ { t with pk := none } rfl]
    constructor
    · rintro ⟨⟨hamt, hne, hfrom, hto⟩, hfund⟩
      exact ⟨⟨hamt, hne, (exists_owner_reverseEffect db prev t.fromAccountId t.userId).mpr hfrom,
        (exists_owner_reverseEffect db prev t.toAccountId t.userId).mpr hto⟩, hfund⟩
    · rintro ⟨⟨hamt, hne, hfrom, hto⟩, hfund⟩
      exact ⟨⟨hamt, hne, (exists_owner_reverseEffect db prev t.fromAccountId t.userId).mp hfrom,
        (exists_owner_reverseEffect db prev t.toAccountId t.userId).mp hto⟩, hfund⟩
  · intro db1 db2 h1 h2
    obtain ⟨prev2, hfind2, rfl⟩ := transferSave_update_shape db t db1 pk hpk h1
    rw [hfind] at hfind2
    obtain rfl : prev = prev2 := by injection hfind2
    obtain rfl := transferSave_create_shape _ { t with pk := none } db2 rfl h2
    rfl

/-- The C3 witness state after deleting the prior transfer of 300: A restored
to 1000 and B to 0, no rows. -/
def c3dbd : DB := ⟨[⟨1, 1, "A", 1000, false⟩, ⟨2, 1, "B", 0, false⟩], [], [], [], []⟩

/-- The result of updating the stored transfer (300 from A to B) down to 100. -/
def c3db1 : DB :=
  ⟨[⟨1, 1, "A", 900, false⟩, ⟨2, 1, "B", 100, false⟩], [], [], [], [⟨1, 1, 1, 2, 100⟩]⟩

/-- Witness for C3: decreasing the amount of the stored transfer from 300 to
100 succeeds and produces the same balances as creating a 100 transfer on the
deleted state. -/
theorem c3_witness :
    transferSave w1db ⟨some 1, 1, 1, 2, 100⟩ = .ok c3db1 ∧
    transferSave c3dbd ⟨none, 1, 1, 2, 100⟩ = .ok c3db1 ∧
    c3db1.accounts = c3db1.accounts := by
  refine ⟨by rfl, by rfl, ?_⟩
  exact (c3_update_evaluated_as_if_never_existed w1db ⟨some 1, 1, 1, 2, 100⟩ 1
    ⟨1, 1, 1, 2, 300⟩ c3dbd rfl rfl (by rfl)).2 c3db1 c3db1 (by rfl) (by rfl)

/-- C6: the funds check is skipped exactly for a system from-account: with
validation passing, a transfer whose (post-reversal on update) from-account is
a system account always succeeds — on create its balance simply drops by the
amount, possibly below zero — while for a non-system from-account the save
succeeds precisely when the (post-reversal) balance covers the amount. -/
theorem c6_system_overdraft_exemption :
    (∀ (db : DB) (t : TransferInput) (fa : Account),
      t.pk = none →
      0 < t.amount → t.fromAccountId ≠ t.toAccountId →
      (∃ fa0, getAccount? db t.fromAccountId = some fa0 ∧ fa0.userId = t.userId) →
      (∃ ta0, getAccount? db t.toAccountId = some ta0 ∧ ta0.userId = t.userId) →
      getAccount? db t.fromAccountId = some fa →
      ((fa.is_system = true → ∃ db', transferSave db t = .ok db' ∧
        getAccount? db' t.fromAccountId = some { fa with balance := fa.balance - t.amount }) ∧
       (fa.is_system = false →
        ((∃ db', transferSave db t = .ok db') ↔ t.amount ≤ fa.balance)))) ∧
    (∀ (db : DB) (t : TransferInput) (pk : Nat) (prev : TransferRow) (fa : Account),
      t.pk = some pk →
      db.transfers.find? (fun x => x.pk == pk) = some prev →
      0 < t.amount → t.fromAccountId ≠ t.toAccountId →
      (∃ fa0, getAccount? db t.fromAccountId = some fa0 ∧ fa0.userId = t.userId) →
      (∃ ta0, getAccount? db t.toAccountId = some ta0 ∧ ta0.userId = t.userId) →
      getAccount? (reverseEffect db prev) t.fromAccountId = some fa →
      ((fa.is_system = true → ∃ db', transferSave db t = .ok db') ∧
       (fa.is_system = false →
        ((∃ db', transferSave db t = .ok db') ↔ t.amount ≤ fa.balance)))) := by
  constructor
  · intro db t fa hpk hamt hne hfrom hto hfa
    constructor
    · intro hsys
      obtain ⟨db', hdb'⟩ :=
        (transferSave_create_ok_iff db t hpk).mpr ⟨⟨hamt, hne, hfrom, hto⟩, fa, hfa, Or.inl hsys⟩
      refine ⟨db', hdb', ?_⟩
      obtain rfl := transferSave_create_shape db t db' hpk hdb'
      have hid : fa.id = t.fromAccountId := getAccount?_some_id db _ fa hfa
      show getAccount? (applyEffectT db t) t.fromAccountId = _
      unfold applyEffectT
      rw [getAccount?_updBalance, getAccount?_updBalance, hfa]
      show some (bump t.toAccountId t.amount (bump t.fromAccountId (-t.amount) fa)) = _
      unfold bump
      rw [if_pos hid]
      rw [if_neg (by simpa using hid.symm ▸ hne)]
      rw [sub_eq_add_neg]
    · intro hsys
      rw [transferSave_create_ok_iff db t hpk]
      constructor
      · rintro ⟨_, fa2, hfa2, hcond⟩
        rw [hfa] at hfa2
        obtain rfl : fa = fa2 := by injection hfa2
        rcases hcond with h | h
        · rw [hsys] at h
          exact absurd h (by simp)
        · exact h
      · intro hle
        exact ⟨⟨hamt, hne, hfrom, hto⟩, fa, hfa, Or.inr hle⟩
  · intro db t pk prev fa hpk hfind hamt hne hfrom hto hfa
    constructor
    · intro hsys
      exact (transferSave_update_ok_iff db t pk prev hpk hfind).mpr
        ⟨⟨hamt, hne, hfrom, hto⟩, fa, hfa, Or.inl hsys⟩
    · intro hsys
      rw [transferSave_update_ok_iff db t pk prev hpk hfind]
      constructor
      · rintro ⟨_, fa2, hfa2, hcond⟩
        rw [hfa] at hfa2
        obtain rfl : fa = fa2 := by injection hfa2
        rcases hcond with h | h
        · rw [hsys] at h
          exact absurd h (by simp)
        · exact h
      · intro hle
        exact ⟨⟨hamt, hne, hfrom, hto⟩, fa, hfa, Or.inr hle⟩

/-- The concrete state for the C6 witness: a real account A and the hidden
system account, both with balance 0. -/
def w6db : DB := ⟨[⟨1, 1, "A", 0, false⟩, ⟨3, 1, "External (System)", 0, true⟩], [], [], [], []⟩

/-- Witness for C6: a salary-style transfer of 5000 out of the system account
with balance 0 succeeds and drives the system account to -5000. -/
theorem c6_witness :
    ∃ db', transferSave w6db ⟨none, 1, 3, 1, 5000⟩ = .ok db' ∧
      getAccount? db' 3 = some ⟨3, 1, "External (System)", -5000, true⟩ :=
  ((c6_system_overdraft_exemption).1 w6db ⟨none, 1, 3, 1, 5000⟩
    ⟨3, 1, "External (System)", 0, true⟩ rfl (by decide) (by decide)
    ⟨⟨3, 1, "External (System)", 0, true⟩, by rfl, rfl⟩
    ⟨⟨1, 1, "A", 0, false⟩, by rfl, rfl⟩ (by rfl)).1 rfl

/-- `TransferSerializer.validate` (`expenses/serializers.py` lines 90-125) for
a create (all three fields present): amount must be positive, the accounts
distinct, both accounts owned by the requesting user — checked before and
regardless of the `allow_system` flag — and system accounts are rejected
unless `allow_system` is set. -/
def transferSerializerValidate (db : DB) (userId : Nat) (allow_system : Bool)
    (fromId toId : Nat) (amount : Int) : Except Err Unit :=
  if amount ≤ 0 then .error .validation
  else
    match getAccount? db fromId, getAccount? db toId with
    | some fa, some ta =>
      if fa.id = ta.id then .error .validation
      else if fa.userId ≠ userId then .error .validation
      else if ta.userId ≠ userId then .error .validation
      else if (fa.is_system || ta.is_system) && !allow_system then .error .validation
      else .ok ()
    | _, _ => .error .notFound

lemma transferSave_ok_owners (db : DB) (t : TransferInput) (db' : DB)
    (h : transferSave db t = .ok db') :
    ∃ fa ta, getAccount? db t.fromAccountId = some fa ∧ fa.userId = t.userId ∧
      getAccount? db t.toAccountId = some ta ∧ ta.userId = t.userId := by
  cases hpk : t.pk with
  | none =>
    have hok : ∃ d, transferSave db t = .ok d := ⟨db', h⟩
    rw [transferSave_create_ok_iff db t hpk] at hok
    obtain ⟨⟨_, _, ⟨fa, hfa, hofa⟩, ⟨ta, hta, hota⟩⟩, _⟩ := hok
    exact ⟨fa, ta, hfa, hofa, hta, hota⟩
  | some pk =>
    obtain ⟨prev, hfind, _⟩ := transferSave_update_shape db t db' pk hpk h
    have hok : ∃ d, transferSave db t = .ok d := ⟨db', h⟩
    rw [transferSave_update_ok_iff db t pk prev hpk hfind] at hok
    obtain ⟨⟨_, _, ⟨fa, hfa, hofa⟩, ⟨ta, hta, hota⟩⟩, _⟩ := hok
    exact ⟨fa, ta, hfa, hofa, hta, hota⟩

/-- C10: every Transfer the model layer persists has both accounts owned by
the transfer's user; a transfer referencing an account of another user (as
origin or destination) can never be saved; and the serializer enforces the
same ownership for every value of the `allow_system` flag — the flag only
lifts the no-system-account restriction, which is otherwise enforced. -/
theorem c10_transfer_accounts_same_user :
    (∀ (db : DB) (t : TransferInput) (db' : DB), transferSave db t = .ok db' →
      ∃ fa ta, getAccount? db t.fromAccountId = some fa ∧ fa.userId = t.userId ∧
        getAccount? db t.toAccountId = some ta ∧ ta.userId = t.userId) ∧
    (∀ (db : DB) (t : TransferInput) (a : Account),
      (getAccount? db t.fromAccountId = some a ∨ getAccount? db t.toAccountId = some a) →
      a.userId ≠ t.userId → ∀ db2, transferSave db t ≠ .ok db2) ∧
    (∀ (db : DB) (u : Nat) (flag : Bool) (fromId toId : Nat) (amount : Int),
      transferSerializerValidate db u flag fromId toId amount = .ok () →
      ∃ fa ta, getAccount? db fromId = some fa ∧ fa.userId = u ∧
        getAccount? db toId = some ta ∧ ta.userId = u) ∧
    (∀ (db : DB) (u : Nat) (fromId toId : Nat) (amount : Int),
      transferSerializerValidate db u false fromId toId amount = .ok () →
      ∀ a, (getAccount? db fromId = some a ∨ getAccount? db toId = some a) →
        a.is_system = false) := by
  refine ⟨transferSave_ok_owners, ?_, ?_, ?_⟩
  · intro db t a hlook howner db2 hok
    obtain ⟨fa, ta, hfa, hofa, hta, hota⟩ := transferSave_ok_owners db t db2 hok
    rcases hlook with h | h
    · rw [hfa] at h
      obtain rfl : fa = a := by injection h
      exact howner hofa
    · rw [hta] at h
      obtain rfl : ta = a := by injection h
      exact howner hota
  · intro db u flag fromId toId amount h
    unfold transferSerializerValidate at h
    split at h
    · exact absurd h (by simp)
    split at h
    · rename_i fa ta hfa hta
      split at h
      · exact absurd h (by simp)
      split at h
      · exact absurd h (by simp)
      rename_i hofa
      split at h
      · exact absurd h (by simp)
      rename_i hota
      split at h
      · exact absurd h (by simp)
      exact ⟨fa, ta, hfa, not_ne_iff.mp hofa, hta, not_ne_iff.mp hota⟩
    · exact absurd h (by simp)
  · intro db u fromId toId amount h
    unfold transferSerializerValidate at h
    split at h
    · exact absurd h (by simp)
    split at h
    · rename_i fa ta hfa hta
      split at h
      · exact absurd h (by simp)
      split at h
      · exact absurd h (by simp)
      split at h
      · exact absurd h (by simp)
      split at h
      · exact absurd h (by simp)
      rename_i hsys
      have hsys2 : fa.is_system = false ∧ ta.is_system = false := by
        constructor
        · cases hf : fa.is_system
          · rfl
          · exact absurd (by simp [hf]) hsys
        · cases ht : ta.is_system
          · rfl
          · exact absurd (by simp [ht]) hsys
      intro a hlook
      rcases hlook with hl | hl
      · rw [hfa] at hl
        obtain rfl : fa = a := by injection hl
        exact hsys2.1
      · rw [hta] at hl
        obtain rfl : ta = a := by injection hl
        exact hsys2.2
    · exact absurd h (by simp)

/-- The concrete state for the C10 witness: account X belongs to user 2, A
and B to user 1. -/
def w10db : DB :=
  ⟨[⟨1, 2, "X", 100, false⟩, ⟨2, 1, "A", 100, false⟩, ⟨3, 1, "B", 0, false⟩], [], [], [], []⟩

/-- The persisted result of user 1 transferring 50 from A to B. -/
def c10ok : DB :=
  ⟨[⟨1, 2, "X", 100, false⟩, ⟨2, 1, "A", 50, false⟩, ⟨3, 1, "B", 50, false⟩], [], [], [],
    [⟨1, 1, 2, 3, 50⟩]⟩

/-- Witness for C10: user 1's transfer between their own accounts persists
with both accounts owned by user 1, and a transfer drawing on user 2's
account X is rejected. -/
theorem c10_witness :
    transferSave w10db ⟨none, 1, 2, 3, 50⟩ = .ok c10ok ∧
    (∃ fa ta, getAccount? w10db 2 = some fa ∧ fa.userId = 1 ∧
      getAccount? w10db 3 = some ta ∧ ta.userId = 1) ∧
    ¬ (transferSave w10db ⟨none, 1, 1, 2, 10⟩ = .ok w10db) := by
  refine ⟨by rfl, ?_, ?_⟩
  · exact c10_transfer_accounts_same_user.1 w10db ⟨none, 1, 2, 3, 50⟩ c10ok (by rfl)
  · exact c10_transfer_accounts_same_user.2.1 w10db ⟨none, 1, 1, 2, 10⟩ ⟨1, 2, "X", 100, false⟩
      (Or.inl (by rfl)) (by decide) w10db

lemma ite_eq_comm (x y : Nat) (d : Int) : (if x = y then d else 0) = (if y = x then d else 0) := by
  by_cases h : x = y
  · rw [if_pos h, if_pos h.symm]
  · rw [if_neg h, if_neg (fun heq => h heq.symm)]

lemma neg_ite_zero (c : Prop) [Decidable c] (d : Int) :
    (if c then -d else 0) = -(if c then d else 0) := by
  split <;> simp

lemma consistent_of_delta (db db' : DB) (f : Nat → Int)
    (hacc : ∀ a' ∈ db'.accounts, ∃ a ∈ db.accounts, a'.id = a.id ∧ a'.balance = a.balance + f a.id)
    (hsum : ∀ aid, ledgerSum db' aid = ledgerSum db aid + f aid)
    (hc : consistent db) : consistent db' := by
  intro a' ha'
  obtain ⟨a, ha, hid, hbal⟩ := hacc a' ha'
  rw [hbal, hc a ha, hid, hsum]

lemma consistent_expense_append (db : DB) (row : ExpenseRow) (hc : consistent db) :
    consistent { updBalance db row.accountId (-row.amount) with
      expenses := db.expenses ++ [row] } := by
  refine consistent_of_delta db _ (fun aid => if aid = row.accountId then -row.amount else 0)
    ?_ ?_ hc
  · intro a' ha'
    obtain ⟨a, ha, hid, _, _, _, hbal⟩ := updBalance_shape db row.accountId (-row.amount) a' ha'
    exact ⟨a, ha, hid, hbal⟩
  · intro aid
    show sumBy (incomeDeltaFor aid) db.incomes + sumBy (transferDeltaFor aid) db.transfers
        - sumBy (expenseDeltaFor aid) (db.expenses ++ [row]) =
      ledgerSum db aid + (if aid = row.accountId then -row.amount else 0)
    rw [sumBy_append]
    unfold ledgerSum expenseDeltaFor
    rw [ite_eq_comm row.accountId aid, neg_ite_zero]
    ring

lemma consistent_expense_replace_moved (db : DB) (pk : Nat) (prev new : ExpenseRow)
    (hfilter : db.expenses.filter (fun x => x.pk == pk) = [prev]) (hc : consistent db) :
    consistent { updBalance (updBalance db prev.accountId prev.amount) new.accountId
        (-new.amount) with
      expenses := db.expenses.map (fun x => if x.pk == pk then new else x) } := by
  refine consistent_of_delta db _ (fun aid => (if aid = prev.accountId then prev.amount else 0)
    + (if aid = new.accountId then -new.amount else 0)) ?_ ?_ hc
  · intro a' ha'
    obtain ⟨a1, ha1, hid1, _, _, _, hbal1⟩ :=
      updBalance_shape (updBalance db prev.accountId prev.amount) new.accountId
        (-new.amount) a' ha'
    obtain ⟨a, ha, hid2, _, _, _, hbal2⟩ := updBalance_shape db prev.accountId prev.amount a1 ha1
    refine ⟨a, ha, hid1.trans hid2, ?_⟩
    rw [hbal1, hbal2, hid2]
    ring
  · intro aid
    show sumBy (incomeDeltaFor aid) db.incomes + sumBy (transferDeltaFor aid) db.transfers
        - sumBy (expenseDeltaFor aid) (db.expenses.map (fun x => if x.pk == pk then new else x)) =
      ledgerSum db aid + ((if aid = prev.accountId then prev.amount else 0)
        + (if aid = new.accountId then -new.amount else 0))
    rw [sumBy_replace (expenseDeltaFor aid) (fun x => x.pk == pk) new db.expenses prev hfilter]
    unfold ledgerSum expenseDeltaFor
    rw [ite_eq_comm prev.accountId aid, ite_eq_comm new.accountId aid, neg_ite_zero]
    ring

lemma consistent_expense_replace_same (db : DB) (pk : Nat) (prev new : ExpenseRow)
    (hfilter : db.expenses.filter (fun x => x.pk == pk) = [prev])
    (heq : prev.accountId = new.accountId) (hc : consistent db) :
    consistent { updBalance db new.accountId (-(new.amount - prev.amount)) with
      expenses := db.expenses.map (fun x => if x.pk == pk then new else x) } := by
  refine consistent_of_delta db _ (fun aid => (if aid = prev.accountId then prev.amount else 0)
    + (if aid = new.accountId then -new.amount else 0)) ?_ ?_ hc
  · intro a' ha'
    obtain ⟨a, ha, hid, _, _, _, hbal⟩ :=
      updBalance_shape db new.accountId (-(new.amount - prev.amount)) a' ha'
    refine ⟨a, ha, hid, ?_⟩
    rw [hbal]
    simp only [heq]
    by_cases h : a.id = new.accountId <;> simp [h] <;> try ring
  · intro aid
    show sumBy (incomeDeltaFor aid) db.incomes + sumBy (transferDeltaFor aid) db.transfers
        - sumBy (expenseDeltaFor aid) (db.expenses.map (fun x => if x.pk == pk then new else x)) =
      ledgerSum db aid + ((if aid = prev.accountId then prev.amount else 0)
        + (if aid = new.accountId then -new.amount else 0))
    rw [sumBy_replace (expenseDeltaFor aid) (fun x => x.pk == pk) new db.expenses prev hfilter]
    unfold ledgerSum expenseDeltaFor
    rw [ite_eq_comm prev.accountId aid, ite_eq_comm new.accountId aid, neg_ite_zero]
    ring

lemma consistent_expense_remove (db : DB) (pk : Nat) (row : ExpenseRow)
    (hfilter : db.expenses.filter (fun x => x.pk == pk) = [row]) (hc : consistent db) :
    consistent { updBalance db row.accountId row.amount with
      expenses := db.expenses.filter (fun x => ! (x.pk == pk)) } := by
  refine consistent_of_delta db _ (fun aid => if aid = row.accountId then row.amount else 0)
    ?_ ?_ hc
  · intro a' ha'
    obtain ⟨a, ha, hid, _, _, _, hbal⟩ := updBalance_shape db row.accountId row.amount a' ha'
    exact ⟨a, ha, hid, hbal⟩
  · intro aid
    show sumBy (incomeDeltaFor aid) db.incomes + sumBy (transferDeltaFor aid) db.transfers
        - sumBy (expenseDeltaFor aid) (db.expenses.filter (fun x => ! (x.pk == pk))) =
      ledgerSum db aid + (if aid = row.accountId then row.amount else 0)
    rw [sumBy_remove (expenseDeltaFor aid) (fun x => x.pk == pk) db.expenses row hfilter]
    unfold ledgerSum expenseDeltaFor
    rw [ite_eq_comm row.accountId aid]
    ring

lemma consistent_income_append (db : DB) (row : IncomeRow) (hc : consistent db) :
    consistent { updBalance db row.accountId row.amount with
      incomes := db.incomes ++ [row] } := by
  refine consistent_of_delta db _ (fun aid => if aid = row.accountId then row.amount else 0)
    ?_ ?_ hc
  · intro a' ha'
    obtain ⟨a, ha, hid, _, _, _, hbal⟩ := updBalance_shape db row.accountId row.amount a' ha'
    exact ⟨a, ha, hid, hbal⟩
  · intro aid
    show sumBy (incomeDeltaFor aid) (db.incomes ++ [row]) + sumBy (transferDeltaFor aid) db.transfers
        - sumBy (expenseDeltaFor aid) db.expenses =
      ledgerSum db aid + (if aid = row.accountId then row.amount else 0)
    rw [sumBy_append]
    unfold ledgerSum incomeDeltaFor
    rw [ite_eq_comm row.accountId aid]
    ring

lemma consistent_income_replace_moved (db : DB) (pk : Nat) (prev new : IncomeRow)
    (hfilter : db.incomes.filter (fun x => x.pk == pk) = [prev]) (hc : consistent db) :
    consistent { updBalance (updBalance db prev.accountId (-prev.amount)) new.accountId
        new.amount with
      incomes := db.incomes.map (fun x => if x.pk == pk then new else x) } := by
  refine consistent_of_delta db _ (fun aid => (if aid = prev.accountId then -prev.amount else 0)
    + (if aid = new.accountId then new.amount else 0)) ?_ ?_ hc
  · intro a' ha'
    obtain ⟨a1, ha1, hid1, _, _, _, hbal1⟩ :=
      updBalance_shape (updBalance db prev.accountId (-prev.amount)) new.accountId
        new.amount a' ha'
    obtain ⟨a, ha, hid2, _, _, _, hbal2⟩ :=
      updBalance_shape db prev.accountId (-prev.amount) a1 ha1
    refine ⟨a, ha, hid1.trans hid2, ?_⟩
    rw [hbal1, hbal2, hid2]
    ring
  · intro aid
    show sumBy (incomeDeltaFor aid) (db.incomes.map (fun x => if x.pk == pk then new else x))
        + sumBy (transferDeltaFor aid) db.transfers
        - sumBy (expenseDeltaFor aid) db.expenses =
      ledgerSum db aid + ((if aid = prev.accountId then -prev.amount else 0)
        + (if aid = new.accountId then new.amount else 0))
    rw [sumBy_replace (incomeDeltaFor aid) (fun x => x.pk == pk) new db.incomes prev hfilter]
    unfold ledgerSum incomeDeltaFor
    rw [ite_eq_comm prev.accountId aid, ite_eq_comm new.accountId aid, neg_ite_zero]
    ring

lemma consistent_income_replace_same (db : DB) (pk : Nat) (prev new : IncomeRow)
    (hfilter : db.incomes.filter (fun x => x.pk == pk) = [prev])
    (heq : prev.accountId = new.accountId) (hc : consistent db) :
    consistent { updBalance db new.accountId (new.amount - prev.amount) with
      incomes := db.incomes.map (fun x => if x.pk == pk then new else x) } := by
  refine consistent_of_delta db _ (fun aid => (if aid = prev.accountId then -prev.amount else 0)
    + (if aid = new.accountId then new.amount else 0)) ?_ ?_ hc
  · intro a' ha'
    obtain ⟨a, ha, hid, _, _, _, hbal⟩ :=
      updBalance_shape db new.accountId (new.amount - prev.amount) a' ha'
    refine ⟨a, ha, hid, ?_⟩
    rw [hbal]
    simp only [heq]
    by_cases h : a.id = new.accountId <;> simp [h] <;> try ring
  · intro aid
    show sumBy (incomeDeltaFor aid) (db.incomes.map (fun x => if x.pk == pk then new else x))
        + sumBy (transferDeltaFor aid) db.transfers
        - sumBy (expenseDeltaFor aid) db.expenses =
      ledgerSum db aid + ((if aid = prev.accountId then -prev.amount else 0)
        + (if aid = new.accountId then new.amount else 0))
    rw [sumBy_replace (incomeDeltaFor aid) (fun x => x.pk == pk) new db.incomes prev hfilter]
    unfold ledgerSum incomeDeltaFor
    rw [ite_eq_comm prev.accountId aid, ite_eq_comm new.accountId aid, neg_ite_zero]
    ring

lemma consistent_income_remove (db : DB) (pk : Nat) (row : IncomeRow)
    (hfilter : db.incomes.filter (fun x => x.pk == pk) = [row]) (hc : consistent db) :
    consistent { updBalance db row.accountId (-row.amount) with
      incomes := db.incomes.filter (fun x => ! (x.pk == pk)) } := by
  refine consistent_of_delta db _ (fun aid => if aid = row.accountId then -row.amount else 0)
    ?_ ?_ hc
  · intro a' ha'
    obtain ⟨a, ha, hid, _, _, _, hbal⟩ := updBalance_shape db row.accountId (-row.amount) a' ha'
    exact ⟨a, ha, hid, hbal⟩
  · intro aid
    show sumBy (incomeDeltaFor aid) (db.incomes.filter (fun x => ! (x.pk == pk)))
        + sumBy (transferDeltaFor aid) db.transfers
        - sumBy (expenseDeltaFor aid) db.expenses =
      ledgerSum db aid + (if aid = row.accountId then -row.amount else 0)
    rw [sumBy_remove (incomeDeltaFor aid) (fun x => x.pk == pk) db.incomes row hfilter]
    unfold ledgerSum incomeDeltaFor
    rw [ite_eq_comm row.accountId aid, neg_ite_zero]
    ring

lemma consistent_transfer_append (db : DB) (t : TransferInput) (pk : Nat) (hc : consistent db) :
    consistent { applyEffectT db t with transfers := db.transfers ++ [rowOfInput pk t] } := by
  refine consistent_of_delta db _ (fun aid => (if aid = t.fromAccountId then -t.amount else 0)
    + (if aid = t.toAccountId then t.amount else 0)) ?_ ?_ hc
  · intro a' ha'
    obtain ⟨a1, ha1, hid1, _, _, _, hbal1⟩ :=
      updBalance_shape (updBalance db t.fromAccountId (-t.amount)) t.toAccountId t.amount a' ha'
    obtain ⟨a, ha, hid2, _, _, _, hbal2⟩ :=
      updBalance_shape db t.fromAccountId (-t.amount) a1 ha1
    refine ⟨a, ha, hid1.trans hid2, ?_⟩
    rw [hbal1, hbal2, hid2]
    ring
  · intro aid
    show sumBy (incomeDeltaFor aid) db.incomes
        + sumBy (transferDeltaFor aid) (db.transfers ++ [rowOfInput pk t])
        - sumBy (expenseDeltaFor aid) db.expenses =
      ledgerSum db aid + ((if aid = t.fromAccountId then -t.amount else 0)
        + (if aid = t.toAccountId then t.amount else 0))
    rw [sumBy_append]
    simp only [ledgerSum, transferDeltaFor, rowOfInput]
    rw [ite_eq_comm t.toAccountId aid, ite_eq_comm t.fromAccountId aid, neg_ite_zero]
    ring

lemma consistent_transfer_replace (db : DB) (pk : Nat) (prev : TransferRow) (t : TransferInput)
    (hfilter : db.transfers.filter (fun x => x.pk == pk) = [prev]) (hc : consistent db) :
    consistent { applyEffectT (reverseEffect db prev) t with
      transfers := db.transfers.map (fun x => if x.pk == pk then rowOfInput pk t else x) } := by
  refine consistent_of_delta db _ (fun aid =>
    (if aid = prev.fromAccountId then prev.amount else 0)
    + (if aid = prev.toAccountId then -prev.amount else 0)
    + (if aid = t.fromAccountId then -t.amount else 0)
    + (if aid = t.toAccountId then t.amount else 0)) ?_ ?_ hc
  · intro a' ha'
    obtain ⟨a3, ha3, hid43, _, _, _, hbal4⟩ :=
      updBalance_shape (updBalance (reverseEffect db prev) t.fromAccountId (-t.amount))
        t.toAccountId t.amount a' ha'
    obtain ⟨a2, ha2, hid32, _, _, _, hbal3⟩ :=
      updBalance_shape (reverseEffect db prev) t.fromAccountId (-t.amount) a3 ha3
    obtain ⟨a1, ha1, hid21, _, _, _, hbal2⟩ :=
      updBalance_shape (updBalance db prev.fromAccountId prev.amount) prev.toAccountId
        (-prev.amount) a2 ha2
    obtain ⟨a, ha, hid10, _, _, _, hbal1⟩ :=
      updBalance_shape db prev.fromAccountId prev.amount a1 ha1
    refine ⟨a, ha, hid43.trans (hid32.trans (hid21.trans hid10)), ?_⟩
    rw [hbal4, hbal3, hbal2, hbal1, hid32, hid21, hid10]
    ring
  · intro aid
    show sumBy (incomeDeltaFor aid) db.incomes
        + sumBy (transferDeltaFor aid)
            (db.transfers.map (fun x => if x.pk == pk then rowOfInput pk t else x))
        - sumBy (expenseDeltaFor aid) db.expenses =
      ledgerSum db aid + ((if aid = prev.fromAccountId then prev.amount else 0)
        + (if aid = prev.toAccountId then -prev.amount else 0)
        + (if aid = t.fromAccountId then -t.amount else 0)
        + (if aid = t.toAccountId then t.amount else 0))
    rw [sumBy_replace (transferDeltaFor aid) (fun x => x.pk == pk) (rowOfInput pk t)
      db.transfers prev hfilter]
    simp only [ledgerSum, transferDeltaFor, rowOfInput]
    rw [ite_eq_comm prev.toAccountId aid, ite_eq_comm prev.fromAccountId aid,
      ite_eq_comm t.toAccountId aid, ite_eq_comm t.fromAccountId aid,
      neg_ite_zero, neg_ite_zero]
    ring

lemma consistent_transfer_remove (db : DB) (pk : Nat) (prev : TransferRow)
    (hfilter : db.transfers.filter (fun x => x.pk == pk) = [prev]) (hc : consistent db) :
    consistent { reverseEffect db prev with
      transfers := db.transfers.filter (fun x => ! (x.pk == pk)) } := by
  refine consistent_of_delta db _ (fun aid =>
    (if aid = prev.fromAccountId then prev.amount else 0)
    + (if aid = prev.toAccountId then -prev.amount else 0)) ?_ ?_ hc
  · intro a' ha'
    obtain ⟨a1, ha1, hid1, _, _, _, hbal1⟩ :=
      updBalance_shape (updBalance db prev.fromAccountId prev.amount) prev.toAccountId
        (-prev.amount) a' ha'
    obtain ⟨a, ha, hid2, _, _, _, hbal2⟩ :=
      updBalance_shape db prev.fromAccountId prev.amount a1 ha1
    refine ⟨a, ha, hid1.trans hid2, ?_⟩
    rw [hbal1, hbal2, hid2]
    ring
  · intro aid
    show sumBy (incomeDeltaFor aid) db.incomes
        + sumBy (transferDeltaFor aid) (db.transfers.filter (fun x => ! (x.pk == pk)))
        - sumBy (expenseDeltaFor aid) db.expenses =
      ledgerSum db aid + ((if aid = prev.fromAccountId then prev.amount else 0)
        + (if aid = prev.toAccountId then -prev.amount else 0))
    rw [sumBy_remove (transferDeltaFor aid) (fun x => x.pk == pk) db.transfers prev hfilter]
    simp only [ledgerSum, transferDeltaFor]
    rw [ite_eq_comm prev.toAccountId aid, ite_eq_comm prev.fromAccountId aid, neg_ite_zero]
    ring

/-- C2: the balance invariant — every account's cached balance equals the sum
of the deltas of the currently-persisted ledger rows referencing it (incomes
plus incoming transfers minus expenses minus outgoing transfers) — is
preserved by the caller-visible effect of every create, update, and delete of
an Expense, an Income, or a Transfer, assuming the database's primary-key
uniqueness. -/
theorem c2_balance_invariant_preserved (db : DB) (op : Op)
    (hwf : WF db) (hc : consistent db) : consistent (applyOp db op) := by
  obtain ⟨wfE, wfI, wfT⟩ := hwf
  cases op with
  | expense e =>
    show consistent (visible (expenseSave db e) db)
    cases hr : expenseSave db e with
    | error p => exact hc
    | ok db' =>
      show consistent db'
      cases hpk : e.pk with
      | none =>
        obtain rfl := expenseSave_create_shape db e db' hpk hr
        exact consistent_expense_append db
          ⟨freshPk (db.expenses.map (·.pk)), e.userId, e.accountId, e.categoryId, e.amount⟩ hc
      | some pk =>
        obtain ⟨prev, hfind, hcase⟩ := expenseSave_update_shape db e db' pk hpk hr
        have hfilter := filter_eq_single (fun x => x.pk) pk db.expenses wfE prev hfind
        rcases hcase with ⟨hne, rfl⟩ | ⟨heq, rfl⟩
        · exact consistent_expense_replace_moved db pk prev
            ⟨pk, e.userId, e.accountId, e.categoryId, e.amount⟩ hfilter hc
        · exact consistent_expense_replace_same db pk prev
            ⟨pk, e.userId, e.accountId, e.categoryId, e.amount⟩ hfilter heq hc
  | income i =>
    show consistent (visible (incomeSave db i) db)
    cases hr : incomeSave db i with
    | error p => exact hc
    | ok db' =>
      show consistent db'
      cases hpk : i.pk with
      | none =>
        obtain rfl := incomeSave_create_shape db i db' hpk hr
        exact consistent_income_append db
          ⟨freshPk (db.incomes.map (·.pk)), i.userId, i.accountId, i.amount⟩ hc
      | some pk =>
        obtain ⟨prev, hfind, hcase⟩ := incomeSave_update_shape db i db' pk hpk hr
        have hfilter := filter_eq_single (fun x => x.pk) pk db.incomes wfI prev hfind
        rcases hcase with ⟨hne, rfl⟩ | ⟨heq, rfl⟩
        · exact consistent_income_replace_moved db pk prev
            ⟨pk, i.userId, i.accountId, i.amount⟩ hfilter hc
        · exact consistent_income_replace_same db pk prev
            ⟨pk, i.userId, i.accountId, i.amount⟩ hfilter heq hc
  | transfer t =>
    show consistent (visible (transferSave db t) db)
    cases hr : transferSave db t with
    | error p => exact hc
    | ok db' =>
      show consistent db'
      cases hpk : t.pk with
      | none =>
        obtain rfl := transferSave_create_shape db t db' hpk hr
        exact consistent_transfer_append db t (freshPk (db.transfers.map (·.pk))) hc
      | some pk =>
        obtain ⟨prev, hfind, rfl⟩ := transferSave_update_shape db t db' pk hpk hr
        have hfilter := filter_eq_single (fun x => x.pk) pk db.transfers wfT prev hfind
        exact consistent_transfer_replace db pk prev t hfilter hc
  | expenseDel pk =>
    show consistent (visible (expenseDelete db pk) db)
    cases hr : expenseDelete db pk with
    | error p => exact hc
    | ok db' =>
      show consistent db'
      cases hfind : db.expenses.find? (fun x => x.pk == pk) with
      | none =>
        unfold expenseDelete at hr
        rw [hfind] at hr
        exact absurd hr (by simp)
      | some row =>
        have hsh := expenseDelete_shape db pk row hfind
        rw [hr] at hsh
        obtain rfl : db' = _ := by injection hsh
        exact consistent_expense_remove db pk row
          (filter_eq_single (fun x => x.pk) pk db.expenses wfE row hfind) hc
  | incomeDel pk =>
    show consistent (visible (incomeDelete db pk) db)
    cases hr : incomeDelete db pk with
    | error p => exact hc
    | ok db' =>
      show consistent db'
      cases hfind : db.incomes.find? (fun x => x.pk == pk) with
      | none =>
        unfold incomeDelete at hr
        rw [hfind] at hr
        exact absurd hr (by simp)
      | some row =>
        have hsh := incomeDelete_shape db pk row hfind
        rw [hr] at hsh
        obtain rfl : db' = _ := by injection hsh
        exact consistent_income_remove db pk row
          (filter_eq_single (fun x => x.pk) pk db.incomes wfI row hfind) hc
  | transferDel pk =>
    show consistent (visible (transferDelete db pk) db)
    cases hr : transferDelete db pk with
    | error p => exact hc
    | ok db' =>
      show consistent db'
      cases hfind : db.transfers.find? (fun x => x.pk == pk) with
      | none =>
        unfold transferDelete at hr
        rw [hfind] at hr
        exact absurd hr (by simp)
      | some row =>
        have hsh := transferDelete_shape db pk row hfind
        rw [hr] at hsh
        obtain rfl : db' = _ := by injection hsh
        exact consistent_transfer_remove db pk row
          (filter_eq_single (fun x => x.pk) pk db.transfers wfT row hfind) hc

/-- The concrete consistent state for the C2 witness: an income of 1000 into A
and a transfer of 300 from A to B, with cached balances 700 and 300. -/
def w2db : DB :=
  ⟨[⟨1, 1, "A", 700, false⟩, ⟨2, 1, "B", 300, false⟩], [⟨1, 1⟩], [],
    [⟨1, 1, 1, 1000⟩], [⟨1, 1, 1, 2, 300⟩]⟩

/-- Witness for C2: the invariant holds on the concrete state and is preserved
by creating an expense of 200 on account A. -/
theorem c2_witness :
    WF w2db ∧ consistent w2db ∧
      consistent (applyOp w2db (Op.expense ⟨none, 1, 1, 1, 200⟩)) :=
  ⟨by unfold WF; decide, by unfold consistent; decide,
    c2_balance_invariant_preserved w2db (Op.expense ⟨none, 1, 1, 1, 200⟩)
      (by unfold WF; decide) (by unfold consistent; decide)⟩

/-- The validation outcome of `Transfer.save` seen from the start of its
critical section: `full_clean` (amount, distinct accounts, existence and
ownership of both accounts) plus, for an update, the existence of the stored
row.  None of these read an account balance, so they are unaffected by the
balance writes of a concurrent transfer. -/
def transferOkB (db : DB) (t : TransferInput) : Bool :=
  decide (0 < t.amount) && decide (t.fromAccountId ≠ t.toAccountId) &&
  (match getAccount? db t.fromAccountId, getAccount? db t.toAccountId with
   | some fa, some ta => decide (fa.userId = t.userId) && decide (ta.userId = t.userId)
   | _, _ => false) &&
  (match t.pk with
   | some pk => (db.transfers.find? (fun x => x.pk == pk)).isSome
   | none => true)

lemma updBalance_transfers (db : DB) (j : Nat) (d : Int) :
    (updBalance db j d).transfers = db.transfers := rfl

lemma transferOkB_eq_true (db : DB) (t : TransferInput) :
    transferOkB db t = true ↔
      (0 < t.amount ∧ t.fromAccountId ≠ t.toAccountId ∧
        (∃ fa, getAccount? db t.fromAccountId = some fa ∧ fa.userId = t.userId) ∧
        (∃ ta, getAccount? db t.toAccountId = some ta ∧ ta.userId = t.userId) ∧
        (match t.pk with
         | some pk => ∃ prev, db.transfers.find? (fun x => x.pk == pk) = some prev
         | none => True)) := by
  rcases hfa : getAccount? db t.fromAccountId with _ | fa <;>
    rcases hta : getAccount? db t.toAccountId with _ | ta <;>
    cases hpk : t.pk <;>
      simp [transferOkB, hfa, hta, hpk, Option.isSome_iff_exists, and_assoc,
        Bool.and_eq_true, decide_eq_true_eq]

lemma transferOkB_updBalance (db : DB) (j : Nat) (d : Int) (t : TransferInput) :
    transferOkB (updBalance db j d) t = transferOkB db t := by
  unfold transferOkB
  rw [getAccount?_updBalance, getAccount?_updBalance, updBalance_transfers]
  rcases hfa : getAccount? db t.fromAccountId with _ | fa <;>
    rcases hta : getAccount? db t.toAccountId with _ | ta <;>
      simp [bump_userId]

lemma transferOkB_reverseEffect (db : DB) (prev : TransferRow) (t : TransferInput) :
    transferOkB (reverseEffect db prev) t = transferOkB db t := by
  unfold reverseEffect
  rw [transferOkB_updBalance, transferOkB_updBalance]

lemma restore_reverse_eq (db : DB) (prev : TransferRow) :
    restorePrev (reverseEffect db prev) prev = db :=
  calc restorePrev (reverseEffect db prev) prev
      = { db with accounts := (restorePrev (reverseEffect db prev) prev).accounts } := rfl
    _ = { db with accounts := db.accounts } := by rw [restore_reverse_accounts]
    _ = db := rfl

lemma transferSave_ok_okB (db : DB) (t : TransferInput) (db' : DB)
    (h : transferSave db t = .ok db') : transferOkB db t = true := by
  rw [transferOkB_eq_true]
  cases hpk : t.pk with
  | none =>
    obtain ⟨⟨hamt, hne, hfrom, hto⟩, _⟩ := (transferSave_create_ok_iff db t hpk).mp ⟨db', h⟩
    exact ⟨hamt, hne, hfrom, hto, trivial⟩
  | some pk =>
    obtain ⟨prev, hfind, _⟩ := transferSave_update_shape db t db' pk hpk h
    obtain ⟨⟨hamt, hne, hfrom, hto⟩, _⟩ :=
      (transferSave_update_ok_iff db t pk prev hpk hfind).mp ⟨db', h⟩
    exact ⟨hamt, hne, hfrom, hto, ⟨prev, hfind⟩⟩

/-- First write phase of the critical section of `Transfer.save` (lines
176-179): with the validation of the enclosing save passing (`transferOkB`,
whose reads a concurrent transfer never changes) and an update in progress,
reverse the prior effect.  When the save would have aborted before writing,
the phase writes nothing (the transaction's rollback leaves no effect). -/
def stepReverse (t : TransferInput) (db : DB) : DB :=
  if transferOkB db t then
    match t.pk with
    | some pk =>
      match db.transfers.find? (fun x => x.pk == pk) with
      | some prev => reverseEffect db prev
      | none => db
    | none => db
  else db

/-- Second write phase of the critical section of `Transfer.save` (lines
181-194): re-read the locked from-account, run the funds check, and either
apply the new effect and write the row, or — on insufficient funds during an
update — re-apply the reversed prior effect exactly (the state the rollback
then restores). -/
def stepCheckApply (t : TransferInput) (db : DB) : DB :=
  if transferOkB db t then
    match t.pk with
    | some pk =>
      match db.transfers.find? (fun x => x.pk == pk) with
      | none => db
      | some prev =>
        match getAccount? db t.fromAccountId with
        | none => restorePrev db prev
        | some fa =>
          if fa.is_system = false ∧ fa.balance < t.amount then restorePrev db prev
          else { applyEffectT db t with
            transfers := db.transfers.map (fun x => if x.pk == pk then rowOfInput pk t else x) }
    | none =>
      match getAccount? db t.fromAccountId with
      | none => db
      | some fa =>
        if fa.is_system = false ∧ fa.balance < t.amount then db
        else { applyEffectT db t with
          transfers := db.transfers ++ [rowOfInput (freshPk (db.transfers.map (·.pk))) t] }
  else db

/-- The write phases of one transfer mutation, in program order; the source
acquires the row locks before the first and releases them at transaction end
after the last. -/
def transferCritical (t : TransferInput) : List (DB → DB) :=
  [stepReverse t, stepCheckApply t]

/-- A whole critical section executed without interference. -/
def transferAtomic (t : TransferInput) (db : DB) : DB :=
  stepCheckApply t (stepReverse t db)

lemma transferAtomic_eq_save (db : DB) (t : TransferInput) :
    transferAtomic t db = visible (transferSave db t) db := by
  by_cases hokB : transferOkB db t = true
  · obtain ⟨hamt, hne, ⟨fa0, hfa0, hofa⟩, ⟨ta0, hta0, hota⟩, hpkp⟩ :=
      (transferOkB_eq_true db t).mp hokB
    cases hpk : t.pk with
    | none =>
      by_cases hfunds : fa0.is_system = false ∧ fa0.balance < t.amount
      · have h1 : transferSave db t = .error (.insufficientFunds, db) := by
          simp [transferSave, hpk, hfa0, hta0, hofa, hota, hne, not_le.mpr hamt, hfunds]
        have h2 : transferAtomic t db = db := by
          simp [transferAtomic, stepReverse, stepCheckApply, hokB, hpk, hfa0, hfunds]
        rw [h2, h1]
        rfl
      · have h1 : transferSave db t = .ok { applyEffectT db t with
            transfers := db.transfers ++ [rowOfInput (freshPk (db.transfers.map (·.pk))) t] } := by
          simp [transferSave, hpk, hfa0, hta0, hofa, hota, hne, not_le.mpr hamt, hfunds]
          try rfl
        have h2 : transferAtomic t db = { applyEffectT db t with
            transfers := db.transfers ++ [rowOfInput (freshPk (db.transfers.map (·.pk))) t] } := by
          simp [transferAtomic, stepReverse, stepCheckApply, hokB, hpk, hfa0, hfunds]
          try rfl
        rw [h2, h1]
        rfl
    | some pk =>
      rw [hpk] at hpkp
      obtain ⟨prev, hfind⟩ := hpkp
      have hokB1 : transferOkB (reverseEffect db prev) t = true := by
        rw [transferOkB_reverseEffect]
        exact hokB
      have hfind1 : (reverseEffect db prev).transfers.find? (fun x => x.pk == pk) = some prev :=
        hfind
      have hfa1 : getAccount? (reverseEffect db prev) t.fromAccountId =
          some (bump prev.toAccountId (-prev.amount) (bump prev.fromAccountId prev.amount fa0)) := by
        rw [getAccount?_reverseEffect, hfa0]
        rfl
      by_cases hfunds : (bump prev.toAccountId (-prev.amount)
          (bump prev.fromAccountId prev.amount fa0)).is_system = false ∧
          (bump prev.toAccountId (-prev.amount)
            (bump prev.fromAccountId prev.amount fa0)).balance < t.amount
      · have h1 : transferSave db t =
            .error (.insufficientFunds, restorePrev (reverseEffect db prev) prev) := by
          simp [transferSave, hpk, hfind, hfa0, hta0, hofa, hota, hne, not_le.mpr hamt,
            hfa1, hfunds]
        have h2 : transferAtomic t db = restorePrev (reverseEffect db prev) prev := by
          simp [transferAtomic, stepReverse, stepCheckApply, hokB, hokB1, hpk, hfind, hfind1,
            hfa1, hfunds]
        rw [h2, h1]
        show restorePrev (reverseEffect db prev) prev = db
        exact restore_reverse_eq db prev
      · have h1 : transferSave db t = .ok { applyEffectT (reverseEffect db prev) t with
            transfers := db.transfers.map (fun x => if x.pk == pk then rowOfInput pk t else x) } := by
          simp [transferSave, hpk, hfind, hfa0, hta0, hofa, hota, hne, not_le.mpr hamt,
            hfa1, hfunds]
          try rfl
        have h2 : transferAtomic t db = { applyEffectT (reverseEffect db prev) t with
            transfers := db.transfers.map (fun x => if x.pk == pk then rowOfInput pk t else x) } := by
          simp [transferAtomic, stepReverse, stepCheckApply, hokB, hokB1, hpk, hfind, hfind1,
            hfa1, hfunds]
          try rfl
        rw [h2, h1]
        rfl
  · have hstep : transferAtomic t db = db := by
      simp [transferAtomic, stepReverse, stepCheckApply, hokB]
    rw [hstep]
    cases hr : transferSave db t with
    | error p => rfl
    | ok db' => exact absurd (transferSave_ok_okB db t db' hr) hokB

/-- Apply a list of state transformers in order. -/
def applyAll (fs : List (DB → DB)) (db : DB) : DB := fs.foldl (fun d f => f d) db

/-- An interleaved execution of two event lists: each trace entry says which
mutation performs its next event (`false` the first, `true` the second); a
mutation with no events left contributes nothing. -/
def runTrace : List Bool → List (DB → DB) → List (DB → DB) → DB → DB
  | [], _, _, db => db
  | false :: tr, fs, gs, db =>
    match fs with
    | [] => runTrace tr [] gs db
    | f :: fs2 => runTrace tr fs2 gs (f db)
  | true :: tr, fs, gs, db =>
    match gs with
    | [] => runTrace tr fs [] db
    | g :: gs2 => runTrace tr fs gs2 (g db)

lemma applyAll_cons (f : DB → DB) (fs : List (DB → DB)) (db : DB) :
    applyAll (f :: fs) db = applyAll fs (f db) := rfl

lemma runTrace_false_block (fs : List (DB → DB)) :
    ∀ (tr : List Bool) (gs : List (DB → DB)) (db : DB),
      runTrace (List.replicate fs.length false ++ tr) fs gs db =
        runTrace tr [] gs (applyAll fs db) := by
  induction fs with
  | nil =>
    intro tr gs db
    rfl
  | cons f fs2 ih =>
    intro tr gs db
    rw [List.length_cons, List.replicate_succ, List.cons_append]
    show runTrace (List.replicate fs2.length false ++ tr) fs2 gs (f db) = _
    rw [ih, applyAll_cons]

lemma runTrace_true_block (gs : List (DB → DB)) :
    ∀ (tr : List Bool) (fs : List (DB → DB)) (db : DB),
      runTrace (List.replicate gs.length true ++ tr) fs gs db =
        runTrace tr fs [] (applyAll gs db) := by
  induction gs with
  | nil =>
    intro tr fs db
    rfl
  | cons g gs2 ih =>
    intro tr fs db
    rw [List.length_cons, List.replicate_succ, List.cons_append]
    show runTrace (List.replicate gs2.length true ++ tr) fs gs2 (g db) = _
    rw [ih, applyAll_cons]

lemma runTrace_trues_only (gs : List (DB → DB)) :
    ∀ db, runTrace (List.replicate gs.length true) [] gs db = applyAll gs db := by
  induction gs with
  | nil =>
    intro db
    rfl
  | cons g gs2 ih =>
    intro db
    rw [List.length_cons, List.replicate_succ]
    show runTrace (List.replicate gs2.length true) [] gs2 (g db) = _
    rw [ih, applyAll_cons]

lemma runTrace_falses_only (fs : List (DB → DB)) :
    ∀ db, runTrace (List.replicate fs.length false) fs [] db = applyAll fs db := by
  induction fs with
  | nil =>
    intro db
    rfl
  | cons f fs2 ih =>
    intro db
    rw [List.length_cons, List.replicate_succ]
    show runTrace (List.replicate fs2.length false) fs2 [] (f db) = _
    rw [ih, applyAll_cons]

lemma sublist_singleton_replicate (b : Bool) (n : Nat) :
    List.Sublist [b] (List.replicate (n + 1) b) := by
  rw [List.replicate_succ]
  exact (List.nil_sublist _).cons₂ b

lemma no_pattern_two_phase : ∀ (tr : List Bool),
    ¬ List.Sublist [false, true, false] tr → ¬ List.Sublist [true, false, true] tr →
    ∃ a b, tr = List.replicate a false ++ List.replicate b true ∨
      tr = List.replicate a true ++ List.replicate b false := by
  intro tr
  induction tr with
  | nil =>
    intro _ _
    exact ⟨0, 0, Or.inl rfl⟩
  | cons x rest ih =>
    intro h1 h2
    obtain ⟨a, b, hft | htf⟩ := ih (fun hs => h1 (hs.cons x)) (fun hs => h2 (hs.cons x))
    · cases x
      · refine ⟨a + 1, b, Or.inl ?_⟩
        rw [hft, List.replicate_succ, List.cons_append]
      · cases a with
        | zero =>
          refine ⟨b + 1, 0, Or.inr ?_⟩
          rw [hft]
          simp [List.replicate_succ]
        | succ a2 =>
          cases b with
          | zero =>
            refine ⟨1, a2 + 1, Or.inr ?_⟩
            rw [hft]
            simp [List.replicate_succ]
          | succ b2 =>
            exfalso
            apply h2
            rw [hft]
            exact ((sublist_singleton_replicate false a2).append
              (sublist_singleton_replicate true b2)).cons₂ true
    · cases x
      · cases a with
        | zero =>
          refine ⟨b + 1, 0, Or.inl ?_⟩
          rw [htf]
          simp [List.replicate_succ]
        | succ a2 =>
          cases b with
          | zero =>
            refine ⟨1, a2 + 1, Or.inl ?_⟩
            rw [htf]
            simp [List.replicate_succ]
          | succ b2 =>
            exfalso
            apply h1
            rw [htf]
            exact ((sublist_singleton_replicate true a2).append
              (sublist_singleton_replicate false b2)).cons₂ false
      · refine ⟨a + 1, b, Or.inr ?_⟩
        rw [htf, List.replicate_succ, List.cons_append]

/-- The set of account rows a transfer mutation locks with
`select_for_update` before any balance read (line 170). -/
def lockSet (t : TransferInput) : List Nat := [t.fromAccountId, t.toAccountId]

/-- C4: two concurrent transfer mutations whose lock sets overlap are fully
serialized.  A trace interleaves the two critical sections' events; because
each mutation holds exclusive locks on its two accounts from its first event
to its last, a trace of mutations with overlapping account sets can place no
event of one strictly between two events of the other (the no-pattern
hypothesis).  Every such trace ends in the state of the two `Transfer.save`
operations applied sequentially in some order — never a state reflecting one
of the two deltas applied out of order. -/
theorem c4_overlapping_transfers_serialize (db : DB) (t1 t2 : TransferInput) (tr : List Bool)
    (hc1 : tr.count false = 2) (hc2 : tr.count true = 2)
    (hover : ∃ i, i ∈ lockSet t1 ∧ i ∈ lockSet t2)
    (hmutex : (∃ i, i ∈ lockSet t1 ∧ i ∈ lockSet t2) →
      ¬ List.Sublist [false, true, false] tr ∧ ¬ List.Sublist [true, false, true] tr) :
    runTrace tr (transferCritical t1) (transferCritical t2) db =
      visible (transferSave (visible (transferSave db t1) db) t2)
        (visible (transferSave db t1) db) ∨
    runTrace tr (transferCritical t1) (transferCritical t2) db =
      visible (transferSave (visible (transferSave db t2) db) t1)
        (visible (transferSave db t2) db) := by
  obtain ⟨hp1, hp2⟩ := hmutex hover
  obtain ⟨a, b, hcase | hcase⟩ := no_pattern_two_phase tr hp1 hp2
  · left
    have ha : a = 2 := by
      have h := hc1
      rw [hcase] at h
      simpa [List.count_append, List.count_replicate] using h
    have hb : b = 2 := by
      have h := hc2
      rw [hcase] at h
      simpa [List.count_append, List.count_replicate] using h
    subst ha
    subst hb
    rw [hcase]
    calc runTrace (List.replicate 2 false ++ List.replicate 2 true)
          (transferCritical t1) (transferCritical t2) db
        = runTrace (List.replicate 2 true) [] (transferCritical t2)
            (applyAll (transferCritical t1) db) :=
          runTrace_false_block (transferCritical t1) (List.replicate 2 true)
            (transferCritical t2) db
      _ = applyAll (transferCritical t2) (applyAll (transferCritical t1) db) :=
          runTrace_trues_only (transferCritical t2) _
      _ = visible (transferSave (visible (transferSave db t1) db) t2)
            (visible (transferSave db t1) db) := by
          show transferAtomic t2 (transferAtomic t1 db) = _
          rw [transferAtomic_eq_save, transferAtomic_eq_save]
  · right
    have hb : b = 2 := by
      have h := hc1
      rw [hcase] at h
      simpa [List.count_append, List.count_replicate] using h
    have ha : a = 2 := by
      have h := hc2
      rw [hcase] at h
      simpa [List.count_append, List.count_replicate] using h
    subst ha
    subst hb
    rw [hcase]
    calc runTrace (List.replicate 2 true ++ List.replicate 2 false)
          (transferCritical t1) (transferCritical t2) db
        = runTrace (List.replicate 2 false) (transferCritical t1) []
            (applyAll (transferCritical t2) db) :=
          runTrace_true_block (transferCritical t2) (List.replicate 2 false)
            (transferCritical t1) db
      _ = applyAll (transferCritical t1) (applyAll (transferCritical t2) db) :=
          runTrace_falses_only (transferCritical t1) _
      _ = visible (transferSave (visible (transferSave db t2) db) t1)
            (visible (transferSave db t2) db) := by
          show transferAtomic t1 (transferAtomic t2 db) = _
          rw [transferAtomic_eq_save, transferAtomic_eq_save]

/-- Witness for C4: two creates over the same account pair in swapped roles
(300 from A to B, 100 from B to A), interleaved serially, end in the state of
the two saves applied in order. -/
theorem c4_witness :
    runTrace [false, false, true, true] (transferCritical ⟨none, 1, 1, 2, 300⟩)
        (transferCritical ⟨none, 1, 2, 1, 100⟩) w8db =
      visible (transferSave (visible (transferSave w8db ⟨none, 1, 1, 2, 300⟩) w8db)
        ⟨none, 1, 2, 1, 100⟩) (visible (transferSave w8db ⟨none, 1, 1, 2, 300⟩) w8db) ∨
    runTrace [false, false, true, true] (transferCritical ⟨none, 1, 1, 2, 300⟩)
        (transferCritical ⟨none, 1, 2, 1, 100⟩) w8db =
      visible (transferSave (visible (transferSave w8db ⟨none, 1, 2, 1, 100⟩) w8db)
        ⟨none, 1, 1, 2, 300⟩) (visible (transferSave w8db ⟨none, 1, 2, 1, 100⟩) w8db) :=
  c4_overlapping_transfers_serialize w8db ⟨none, 1, 1, 2, 300⟩ ⟨none, 1, 2, 1, 100⟩
    [false, false, true, true] (by decide) (by decide)
    ⟨1, by decide, by decide⟩ (fun _ => ⟨by decide, by decide⟩)

end ExpTracker
